import Mathlib

/-!
Verification development for the GPX Track Splitter core
(`gpx_splitter.py`, `distance_calculator.py`).

The Python core is shallowly embedded as follows.

* XML is modelled at the element-tree level: `parse_gpx_file` receives the
  list of `trk` elements of an already well-formed document (malformed XML
  raises before the code under study runs, outside this model), and
  `create_gpx_content` produces a `trk` element.  Attribute/text round-trips
  through the XML writer and reader are identities on this level.
* Python `datetime` values are the record `DT` (no microseconds; second
  resolution, which is all the GPX formats in play carry), with an optional
  UTC offset in minutes.  Comparison and subtraction go through a
  seconds-since-epoch key; Python raises on naive/aware mixes, and theorems
  that depend on ordering carry hypotheses keeping tz-ness uniform.
* Python floats are modelled as exact rationals in the parsing/splitting
  layer; `calculate_distance` is an imported collaborator there and is
  passed as an explicit function parameter, while its own haversine formula
  is modelled exactly over the reals in the final section.
* `datetime.now()` is an explicit `now : DT` parameter.
-/

namespace GpxSplitter

/-! ### Characters and digit strings -/

/-- Whitespace as recognised by Python `str.strip` (ASCII fragment). -/
def isPySpace (c : Char) : Bool :=
  c = ' ' || c = '\t' || c = '\n' || c = '\r' || c = '\x0b' || c = '\x0c'

/-- Python `str.strip()`: drop whitespace from both ends. -/
def pyStrip (s : List Char) : List Char :=
  ((((s.dropWhile isPySpace).reverse).dropWhile isPySpace)).reverse

/-- The replacement text `+00:00` used for a trailing `Z`. -/
def plus0000 : List Char := ['+', '0', '0', ':', '0', '0']

/-- Python `str.replace('Z', '+00:00')`: every occurrence is replaced. -/
def replaceZ : List Char → List Char
  | [] => []
  | c :: cs => if c = 'Z' then plus0000 ++ replaceZ cs else c :: replaceZ cs

/-- Python `str.endswith('Z')`. -/
def endsZ (s : List Char) : Bool := s.getLast? = some 'Z'

/-- Decimal digit value of a character, `none` when not a digit. -/
def toDigit (c : Char) : Option ℕ :=
  if '0' ≤ c ∧ c ≤ '9' then some (c.toNat - 48) else none

/-- Character for a single decimal digit. -/
def digitChar (n : ℕ) : Char := Char.ofNat (48 + n)

/-- Two-digit zero-padded decimal rendering (for values below 100). -/
def pad2 (n : ℕ) : List Char := [digitChar (n / 10), digitChar (n % 10)]

/-- Four-digit zero-padded decimal rendering (for values below 10000). -/
def pad4 (n : ℕ) : List Char :=
  [digitChar (n / 1000), digitChar (n / 100 % 10), digitChar (n / 10 % 10),
   digitChar (n % 10)]

/-- Decimal rendering of a natural number, zero-padded to at least three
digits: Python `f"{n:03d}"`. -/
def pad3min (n : ℕ) : List Char :=
  let ds := Nat.toDigits 10 n
  List.replicate (3 - ds.length) '0' ++ ds

/-! ### The datetime model -/

/-- A Python `datetime` to second resolution.  `tz` is the UTC offset in
minutes of an aware datetime, `none` for a naive one. -/
structure DT where
  year : ℕ
  month : ℕ
  day : ℕ
  hour : ℕ
  minute : ℕ
  second : ℕ
  tz : Option ℤ
  deriving DecidableEq, Repr

/-- Leap-year test of the proleptic Gregorian calendar. -/
def isLeap (y : ℕ) : Bool := (y % 4 = 0 && y % 100 ≠ 0) || y % 400 = 0

/-- Length of a month. -/
def daysInMonth (y m : ℕ) : ℕ :=
  if m = 2 then (if isLeap y then 29 else 28)
  else if m = 4 ∨ m = 6 ∨ m = 9 ∨ m = 11 then 30 else 31

/-- Days from civil date to the 1970-01-01 epoch (Howard Hinnant's
`days_from_civil` algorithm, floor divisions throughout). -/
def daysFromCivil (y m d : ℤ) : ℤ :=
  let y' : ℤ := if m ≤ 2 then y - 1 else y
  let era : ℤ := Int.fdiv y' 400
  let yoe : ℤ := y' - era * 400
  let mp : ℤ := if m ≤ 2 then m + 9 else m - 3
  let doy : ℤ := Int.fdiv (153 * mp + 2) 5 + d - 1
  let doe : ℤ := yoe * 365 + Int.fdiv yoe 4 - Int.fdiv yoe 100 + doy
  era * 146097 + doe - 719468

/-- Civil date from days since the epoch (Hinnant's `civil_from_days`). -/
def civilFromDays (z0 : ℤ) : ℤ × ℤ × ℤ :=
  let z : ℤ := z0 + 719468
  let era : ℤ := Int.fdiv z 146097
  let doe : ℤ := z - era * 146097
  let yoe : ℤ :=
    Int.fdiv (doe - Int.fdiv doe 1460 + Int.fdiv doe 36524 - Int.fdiv doe 146096) 365
  let y : ℤ := yoe + era * 400
  let doy : ℤ := doe - (365 * yoe + Int.fdiv yoe 4 - Int.fdiv yoe 100)
  let mp : ℤ := Int.fdiv (5 * doy + 2) 153
  let d : ℤ := doy - Int.fdiv (153 * mp + 2) 5 + 1
  let m : ℤ := if mp < 10 then mp + 3 else mp - 9
  (if m ≤ 2 then y + 1 else y, m, d)

/-- Seconds-since-epoch of the local (wall-clock) fields, offset ignored. -/
def dtLocalSec (t : DT) : ℤ :=
  86400 * daysFromCivil t.year t.month t.day
    + 3600 * t.hour + 60 * t.minute + t.second

/-- Comparison/subtraction key.  Naive datetimes compare by their fields,
aware ones by their UTC instant; Python raises on a naive/aware mix, which
this total model does not reproduce, so ordering-sensitive theorems keep
tz-ness uniform by hypothesis. -/
def dtKey (t : DT) : ℤ := dtLocalSec t - 60 * (t.tz.getD 0)

/-- Model of `datetime + timedelta(minutes=k)`: arithmetic on the wall-clock fields,
offset carried along unchanged. -/
def addMinutes (t : DT) (k : ℕ) : DT :=
  let s : ℤ := dtLocalSec t + 60 * (k : ℤ)
  let days : ℤ := Int.fdiv s 86400
  let rem : ℤ := s - 86400 * days
  let ymd := civilFromDays days
  { year := ymd.1.toNat, month := ymd.2.1.toNat, day := ymd.2.2.toNat,
    hour := (Int.fdiv rem 3600).toNat,
    minute := (Int.fdiv rem 60 % 60).toNat,
    second := (rem % 60).toNat,
    tz := t.tz }

/-- Field ranges enforced by the Python `datetime` constructor (offsets are
whole minutes strictly between -24h and +24h). -/
def DT.WF (t : DT) : Prop :=
  1 ≤ t.year ∧ t.year ≤ 9999 ∧ 1 ≤ t.month ∧ t.month ≤ 12 ∧
  1 ≤ t.day ∧ t.day ≤ daysInMonth t.year t.month ∧
  t.hour ≤ 23 ∧ t.minute ≤ 59 ∧ t.second ≤ 59 ∧
  (∀ z ∈ t.tz, z.natAbs ≤ 1439)

instance (t : DT) : Decidable t.WF := by
  unfold DT.WF; infer_instance

/-! ### ISO-format timestamp parsing

`datetime.fromisoformat` and the two `strptime` patterns are modelled for
fixed-width full date-time strings `YYYY-MM-DDTHH:MM:SS` with an optional
`±HH:MM` offset — the shapes the GPX `time` element carries.  Microseconds,
variable-width fields and exotic separators are outside the model. -/

/-- Value of two decimal digit characters. -/
def digits2 (a b : Char) : Option ℕ :=
  match toDigit a, toDigit b with
  | some x, some y => some (10 * x + y)
  | _, _ => none

/-- Value of four decimal digit characters. -/
def digits4 (a b c d : Char) : Option ℕ :=
  match toDigit a, toDigit b, toDigit c, toDigit d with
  | some x, some y, some z, some w => some (1000 * x + 100 * y + 10 * z + w)
  | _, _, _, _ => none

/-- Build a datetime after the range checks the `datetime` constructor
performs. -/
def mkDTIf (y mo d h n s : ℕ) (tz : Option ℤ) : Option DT :=
  if 1 ≤ y ∧ 1 ≤ mo ∧ mo ≤ 12 ∧ 1 ≤ d ∧ d ≤ daysInMonth y mo ∧
     h ≤ 23 ∧ n ≤ 59 ∧ s ≤ 59 then
    some ⟨y, mo, d, h, n, s, tz⟩
  else none

/-- UTC offset in minutes from a `±HH:MM` suffix. -/
def offsetVal (sg o1 o2 o3 o4 : Char) : Option ℤ :=
  match digits2 o1 o2, digits2 o3 o4 with
  | some h, some m =>
    if h ≤ 23 ∧ m ≤ 59 then
      if sg = '+' then some ((h : ℤ) * 60 + m)
      else if sg = '-' then some (-((h : ℤ) * 60 + m))
      else none
    else none
  | _, _ => none

/-- Model of `datetime.fromisoformat` on the fixed-width date-time grammar:
`YYYY-MM-DDTHH:MM:SS` optionally followed by `±HH:MM`. -/
def fromisoformatM (cs : List Char) : Option DT :=
  match cs with
  | y1 :: y2 :: y3 :: y4 :: c1 :: mo1 :: mo2 :: c2 :: d1 :: d2 :: c3 ::
    h1 :: h2 :: c4 :: n1 :: n2 :: c5 :: s1 :: s2 :: rest =>
    if c1 = '-' ∧ c2 = '-' ∧ c3 = 'T' ∧ c4 = ':' ∧ c5 = ':' then
      match digits4 y1 y2 y3 y4, digits2 mo1 mo2, digits2 d1 d2,
            digits2 h1 h2, digits2 n1 n2, digits2 s1 s2 with
      | some y, some mo, some d, some h, some n, some s =>
        match rest with
        | [] => mkDTIf y mo d h n s none
        | [sg, o1, o2, oc, o3, o4] =>
          if oc = ':' then
            match offsetVal sg o1 o2 o3 o4 with
            | some tz => mkDTIf y mo d h n s (some tz)
            | none => none
          else none
        | _ => none
      | _, _, _, _, _, _ => none
    else none
  | _ => none

/-- Model of `datetime.strptime(s, ...)` for the zone-less pattern
`%Y-%m-%dT%H:%M:%S` (fixed-width fields): exactly the naive branch of the
ISO grammar.  The result is a naive datetime. -/
def noZoneFmt (cs : List Char) : Option DT :=
  match cs with
  | [y1, y2, y3, y4, c1, mo1, mo2, c2, d1, d2, c3, h1, h2, c4, n1, n2, c5,
     s1, s2] =>
    if c1 = '-' ∧ c2 = '-' ∧ c3 = 'T' ∧ c4 = ':' ∧ c5 = ':' then
      match digits4 y1 y2 y3 y4, digits2 mo1 mo2, digits2 d1 d2,
            digits2 h1 h2, digits2 n1 n2, digits2 s1 s2 with
      | some y, some mo, some d, some h, some n, some s =>
        mkDTIf y mo d h n s none
      | _, _, _, _, _, _ => none
    else none
  | _ => none

/-- Model of `datetime.strptime(s, ...)` for `%Y-%m-%dT%H:%M:%SZ`: the
zone-less pattern followed by a literal `Z` (which sets no tzinfo). -/
def strictZFmt (cs : List Char) : Option DT :=
  if endsZ cs then noZoneFmt cs.dropLast else none


/-- The try/except chain of `parse_gpx_file` lines 133-145, applied to the
prepared (stripped, `Z`-replaced) string: `fromisoformat`, then the strict
`Z` format, then the zone-less format. -/
def resolveTimeChain (t : List Char) : Option DT :=
  match fromisoformatM t with
  | some dt => some dt
  | none =>
    match strictZFmt t with
    | some dt => some dt
    | none => noZoneFmt t

/-- Timestamp resolution for one track point (`parse_gpx_file` lines
126-148).  `timeText` is the text of the `time` child (`none` when the
element is absent or has no text), `j` the point's 0-based index among its
track's `trkpt` elements.  Note the source replaces EVERY `'Z'` by
`+00:00` when the string merely ends with `'Z'`, and runs the two
`strptime` fallbacks on that mutated string. -/
def resolveTime (now : DT) (j : ℕ) (timeText : Option (List Char)) : DT :=
  match timeText with
  | some s =>
    if s ≠ [] then
      let s1 := pyStrip s
      let s2 := if endsZ s1 then replaceZ s1 else s1
      match resolveTimeChain s2 with
      | some dt => dt
      | none => addMinutes now j
    else addMinutes now j
  | none => addMinutes now j

/-- Spec-worded timestamp resolution: only a trailing `Z` becomes
`+00:00`, and the two strict formats are tried on the original stripped
string; on total failure or an absent time element the synthetic timestamp
is `now` plus `j` minutes. -/
def replaceTrailingZ (s : List Char) : List Char :=
  if endsZ s then s.dropLast ++ plus0000 else s

/-- The spec-worded chain: ISO parse of the trailing-`Z`-rewritten string,
then the strict formats on the original string. -/
def resolveTimeSpecChain (s1 : List Char) : Option DT :=
  match fromisoformatM (replaceTrailingZ s1) with
  | some dt => some dt
  | none =>
    match strictZFmt s1 with
    | some dt => some dt
    | none => noZoneFmt s1

/-- Spec-worded timestamp resolution for one track point. -/
def resolveTimeSpec (now : DT) (j : ℕ) (timeText : Option (List Char)) : DT :=
  match timeText with
  | some s =>
    if s ≠ [] then
      match resolveTimeSpecChain (pyStrip s) with
      | some dt => dt
      | none => addMinutes now j
    else addMinutes now j
  | none => addMinutes now j

/-- Model of `datetime.isoformat()` for a second-resolution datetime: the naive part
`YYYY-MM-DDTHH:MM:SS`, followed for an aware value by `±HH:MM`. -/
def isoPrint (t : DT) : List Char :=
  pad4 t.year ++ '-' :: pad2 t.month ++ '-' :: pad2 t.day ++ 'T' ::
    pad2 t.hour ++ ':' :: pad2 t.minute ++ ':' :: pad2 t.second ++
    (match t.tz with
     | none => []
     | some z =>
       (if 0 ≤ z then '+' else '-') :: pad2 (z.natAbs / 60) ++ ':' ::
         pad2 (z.natAbs % 60))

/-! ### The element-tree data model and the parser -/

/-- A parsed track point: `{'lat': ..., 'lon': ..., 'timestamp': ...}`.
Floats are modelled as exact rationals. -/
structure Point where
  lat : ℚ
  lon : ℚ
  timestamp : DT
  deriving DecidableEq, Repr

/-- A `trkpt` element.  `lat`/`lon` are `none` when the attribute is absent
or not float-parseable (both raise and skip the point in the source);
`time` is `none` when the `time` child is absent or has no text. -/
structure TrkptElem where
  lat : Option ℚ
  lon : Option ℚ
  time : Option (List Char)
  deriving DecidableEq, Repr

/-- A `trk` element.  `name` is `none` when there is no `name` child,
`some none` when the child exists with no text. -/
structure TrkElem where
  name : Option (Option (List Char))
  trkpts : List TrkptElem
  deriving DecidableEq, Repr

/-- A parsed track dictionary with its derived statistics.  `duration` is
the timedelta in seconds. -/
structure Track where
  name : List Char
  points : List Point
  start_time : DT
  end_time : DT
  duration : ℤ
  total_distance_nm : ℚ
  point_count : ℕ
  deriving DecidableEq, Repr

/-- The imported `calculate_distance` collaborator, abstracted at the
module boundary (its own formula is pinned down over the reals below). -/
def CalcDist : Type := ℚ → ℚ → ℚ → ℚ → ℚ

/-- The accumulation loop `for j in range(1, len(points))` summing
consecutive-pair distances. -/
def totalDistanceLoop (cd : CalcDist) : List Point → ℚ
  | p :: q :: rest => cd p.lat p.lon q.lat q.lon + totalDistanceLoop cd (q :: rest)
  | _ => 0

/-- Default track name `f"Track_{i+1:03d}"` for the 0-based element index
`i`. -/
def defaultTrackName (i : ℕ) : List Char := "Track_".toList ++ pad3min (i + 1)

/-- Track-name resolution (`parse_gpx_file` lines 104-110): the default is
overridden by the stripped name text only when the raw text is present and
non-empty BEFORE stripping (so a whitespace-only name yields the empty
string, not the default). -/
def trackNameOf (i : ℕ) (nameField : Option (Option (List Char))) : List Char :=
  match nameField with
  | some (some t) => if t ≠ [] then pyStrip t else defaultTrackName i
  | _ => defaultTrackName i

/-- Point-level parsing (`parse_gpx_file` lines 120-158): a point whose
`lat` or `lon` fails to parse is skipped; `j` is its 0-based index among
the track's `trkpt` elements. -/
def parsePoint (now : DT) (j : ℕ) (pt : TrkptElem) : Option Point :=
  match pt.lat, pt.lon with
  | some la, some lo => some { lat := la, lon := lo, timestamp := resolveTime now j pt.time }
  | _, _ => none

/-- Python `list.sort(key=lambda x: x['timestamp'])`: a stable sort by the
timestamp key (insertion sort is stable in the required sense). -/
def sortPoints (pts : List Point) : List Point :=
  pts.insertionSort (fun p q => dtKey p.timestamp ≤ dtKey q.timestamp)

/-- Track statistics (`parse_gpx_file` lines 163-185), computed only for a
non-empty point list. -/
def mkTrack (cd : CalcDist) (nm : List Char) : List Point → Option Track
  | [] => none
  | p :: rest =>
    let lastP := (p :: rest).getLast (List.cons_ne_nil p rest)
    some { name := nm,
           points := p :: rest,
           start_time := p.timestamp,
           end_time := lastP.timestamp,
           duration := dtKey lastP.timestamp - dtKey p.timestamp,
           total_distance_nm := totalDistanceLoop cd (p :: rest),
           point_count := (p :: rest).length }

/-- Processing of one `trk` element at 0-based index `i`. -/
def parseTrackAt (cd : CalcDist) (now : DT) (i : ℕ) (trk : TrkElem) : Option Track :=
  mkTrack cd (trackNameOf i trk.name)
    (sortPoints ((trk.trkpts.enum).filterMap fun jp => parsePoint now jp.1 jp.2))

/-- The track loop of `parse_gpx_file` starting the element index at `i0` (the source starts
at 0; the generalisation serves the dropped-track lemmas). -/
def parseGpxFrom (cd : CalcDist) (now : DT) (i0 : ℕ) (doc : List TrkElem) : List Track :=
  (doc.enumFrom i0).filterMap fun it => parseTrackAt cd now it.1 it.2

/-- Model of `parse_gpx_file` over the track elements of a well-formed document.
The source raises only for malformed XML (below this tree-level model);
with zero surviving tracks it RETURNS the empty list. -/
def parse_gpx_file (cd : CalcDist) (now : DT) (doc : List TrkElem) : List Track :=
  parseGpxFrom cd now 0 doc

/-! ### Serializer and track-name generator -/

/-- Model of `create_gpx_content`: the emitted `trk` element (XML writing,
pretty-printing and the float/str round-trip are identities at this tree
level). -/
def create_gpx_content (track_points : List Point) (track_name : List Char) : TrkElem :=
  { name := some (some track_name),
    trkpts := track_points.map fun p =>
      { lat := some p.lat, lon := some p.lon, time := some (isoPrint p.timestamp) } }

/-- Model of `datetime.now().strftime('%Y%m%d_%H%M')`. -/
def strftimeStamp (now : DT) : List Char :=
  pad4 now.year ++ pad2 now.month ++ pad2 now.day ++ '_' ::
    pad2 now.hour ++ pad2 now.minute

/-- Python `f"{x:.4f}"`: fixed four decimal places, round half to even,
with the sign taken from the value (tiny negatives print `-0.0000`). -/
def fmtFixed4 (q : ℚ) : List Char :=
  let scaled : ℚ := q * 10000
  let fl : ℤ := ⌊scaled⌋
  let r : ℤ :=
    if mkRat 1 2 < scaled - fl then fl + 1
    else if scaled - fl < mkRat 1 2 then fl
    else if fl % 2 = 0 then fl else fl + 1
  let mag := r.natAbs
  (if q < 0 then ['-'] else []) ++
    Nat.toDigits 10 (mag / 10000) ++ '.' :: pad4 (mag % 10000)

/-- Model of `generate_track_name`: a wall-clock-stamped name when start and end are
within 0.1 nautical miles, else the coordinate-pair name. -/
def generate_track_name (cd : CalcDist) (now : DT)
    (start_lat start_lon end_lat end_lon : ℚ) : List Char :=
  if cd start_lat start_lon end_lat end_lon < mkRat 1 10 then
    "Track_".toList ++ strftimeStamp now
  else
    fmtFixed4 start_lat ++ ',' :: fmtFixed4 start_lon ++ " to ".toList ++
      fmtFixed4 end_lat ++ ',' :: fmtFixed4 end_lon

/-! ### The segmentation engine -/

/-- A split output dictionary. -/
structure TrackFile where
  name : List Char
  gpx_content : TrkElem
  start_time : DT
  end_time : DT
  duration : ℤ
  total_distance_nm : ℚ
  point_count : ℕ
  points : List Point
  deriving DecidableEq, Repr

/-- The `ValueError`s raised by the splitting entry points. -/
inductive SplitError where
  | noTracks
  | noPoints
  deriving DecidableEq, Repr

/-- The quantity `time_diff.total_seconds() / 3600`. -/
def timeDiffHours (a b : Point) : ℚ :=
  ((dtKey b.timestamp - dtKey a.timestamp : ℤ) : ℚ) / 3600

/-- The split test of `split_gpx_file` line 302:
`time_diff_hours >= max_time_hours and distance <= max_distance_nm`. -/
def splitCond (cd : CalcDist) (maxD maxT : ℚ) (a b : Point) : Bool :=
  decide (maxT ≤ timeDiffHours a b) && decide (cd a.lat a.lon b.lat b.lon ≤ maxD)

/-- The walk of `split_gpx_file` lines 285-311.  `accRev` is the current
segment, reversed; `last` the previous point of the walk (always the most
recently consumed point). -/
def splitGo (cond : Point → Point → Bool) (accRev : List Point) (last : Point) :
    List Point → List (List Point)
  | [] => [accRev.reverse]
  | p :: rest =>
    if cond last p then accRev.reverse :: splitGo cond [p] p rest
    else splitGo cond (p :: accRev) p rest

/-- The whole walk including the first-point initialisation and the final
flush. -/
def splitPoints (cond : Point → Point → Bool) : List Point → List (List Point)
  | [] => []
  | p :: rest => splitGo cond [p] p rest

/-- Spec-worded segmentation: a boundary sits between two consecutive
points of the walk exactly when the split condition holds for that pair. -/
def chop (cond : Point → Point → Bool) : List Point → List (List Point)
  | [] => []
  | [a] => [[a]]
  | a :: b :: rest =>
    match chop cond (b :: rest) with
    | s :: ss => if cond a b then [a] :: s :: ss else (a :: s) :: ss
    | [] => [[a]]

/-- Output-record construction for one segment (`split_gpx_file` lines
319-352); an empty segment is skipped (`continue`). -/
def mkTrackFile (cd : CalcDist) (now : DT) : List Point → Option TrackFile
  | [] => none
  | p :: rest =>
    let lastP := (p :: rest).getLast (List.cons_ne_nil p rest)
    let nm := generate_track_name cd now p.lat p.lon lastP.lat lastP.lon
    some { name := nm,
           gpx_content := create_gpx_content (p :: rest) nm,
           start_time := p.timestamp,
           end_time := lastP.timestamp,
           duration := dtKey lastP.timestamp - dtKey p.timestamp,
           total_distance_nm := totalDistanceLoop cd (p :: rest),
           point_count := (p :: rest).length,
           points := p :: rest }

/-- Model of `split_gpx_file` (Strategy B).  `rq` is the accepted-but-inert
`require_timestamps` flag. -/
def split_gpx_file (cd : CalcDist) (maxD maxT : ℚ) (rq : Bool) (now : DT)
    (doc : List TrkElem) : Except SplitError (List TrackFile) :=
  let tracks := parse_gpx_file cd now doc
  if tracks = [] then .error .noTracks
  else
    let allPts := sortPoints (tracks.flatMap Track.points)
    if allPts = [] then .error .noPoints
    else .ok ((splitPoints (splitCond cd maxD maxT) allPts).filterMap
      (mkTrackFile cd now))

/-- Model of `split_gpx_by_tracks` (Strategy A): each parsed track passes through
with its own name and statistics. -/
def split_gpx_by_tracks (cd : CalcDist) (now : DT) (doc : List TrkElem) :
    Except SplitError (List TrackFile) :=
  let tracks := parse_gpx_file cd now doc
  if tracks = [] then .error .noTracks
  else .ok (tracks.map fun t =>
    { name := t.name,
      gpx_content := create_gpx_content t.points t.name,
      start_time := t.start_time,
      end_time := t.end_time,
      duration := t.duration,
      total_distance_nm := t.total_distance_nm,
      point_count := t.point_count,
      points := t.points })

end GpxSplitter

namespace GpxSplitter

/-! ### Lemmas about the split walk -/

theorem chop_ne_nil (cond : Point → Point → Bool) (p : Point) (l : List Point) :
    chop cond (p :: l) ≠ [] := by
  cases l with
  | nil => simp [chop]
  | cons b rest =>
    unfold chop
    rcases h : chop cond (b :: rest) with _ | ⟨s, ss⟩ <;> simp
    split <;> simp

theorem mem_chop_ne_nil (cond : Point → Point → Bool) :
    ∀ (l : List Point) (seg : List Point), seg ∈ chop cond l → seg ≠ [] := by
  intro l
  induction l with
  | nil => intro seg h; simp [chop] at h
  | cons a l ih =>
    intro seg h
    cases l with
    | nil => simp [chop] at h; simp [h]
    | cons b rest =>
      unfold chop at h
      rcases hc : chop cond (b :: rest) with _ | ⟨s, ss⟩
      · exact absurd hc (chop_ne_nil cond b rest)
      · rw [hc] at h
        have h3 : seg ∈ (if cond a b = true then [a] :: s :: ss else (a :: s) :: ss) := h
        by_cases hcond : cond a b = true
        · rw [if_pos hcond] at h3
          rcases List.mem_cons.mp h3 with rfl | h2
          · simp
          · exact ih seg (hc ▸ h2)
        · rw [if_neg hcond] at h3
          rcases List.mem_cons.mp h3 with rfl | h2
          · simp
          · exact ih seg (hc ▸ (List.mem_cons_of_mem s h2))

theorem splitGo_eq_chop (cond : Point → Point → Bool) :
    ∀ (rest : List Point) (a : Point) (acc : List Point),
      splitGo cond (a :: acc) a rest =
        (acc.reverse ++ (chop cond (a :: rest)).headI) :: (chop cond (a :: rest)).tail := by
  intro rest
  induction rest with
  | nil => intro a acc; simp [splitGo, chop]
  | cons b rest ih =>
    intro a acc
    unfold splitGo chop
    rcases hc : chop cond (b :: rest) with _ | ⟨s, ss⟩
    · exact absurd hc (chop_ne_nil cond b rest)
    · by_cases hcond : cond a b = true
      · simp only [hcond, if_true]
        have h2 := ih b []
        rw [hc] at h2
        simp at h2
        simp [h2, hc]
      · simp only [Bool.not_eq_true] at hcond
        simp only [hcond]
        have h2 := ih b (a :: acc)
        rw [hc] at h2
        simp at h2 ⊢
        simp [h2, hc]

theorem splitPoints_eq_chop (cond : Point → Point → Bool) (l : List Point) :
    splitPoints cond l = chop cond l := by
  cases l with
  | nil => rfl
  | cons p rest =>
    show splitGo cond [p] p rest = chop cond (p :: rest)
    rw [splitGo_eq_chop]
    rcases hc : chop cond (p :: rest) with _ | ⟨s, ss⟩
    · exact absurd hc (chop_ne_nil cond p rest)
    · simp

theorem splitGo_flatten (cond : Point → Point → Bool) :
    ∀ (rest : List Point) (acc : List Point) (last : Point),
      (splitGo cond acc last rest).flatten = acc.reverse ++ rest := by
  intro rest
  induction rest with
  | nil => intro acc last; simp [splitGo]
  | cons p rest ih =>
    intro acc last
    unfold splitGo
    by_cases hcond : cond last p = true
    · simp [hcond, ih]
    · simp only [Bool.not_eq_true] at hcond
      simp [hcond, ih]

theorem splitPoints_flatten (cond : Point → Point → Bool) (l : List Point) :
    (splitPoints cond l).flatten = l := by
  cases l with
  | nil => rfl
  | cons p rest =>
    show (splitGo cond [p] p rest).flatten = p :: rest
    rw [splitGo_flatten]; simp

theorem mem_splitPoints_ne_nil (cond : Point → Point → Bool) (l : List Point)
    (seg : List Point) (h : seg ∈ splitPoints cond l) : seg ≠ [] :=
  mem_chop_ne_nil cond l seg (splitPoints_eq_chop cond l ▸ h)

end GpxSplitter

namespace GpxSplitter

theorem mkTrackFile_of_ne_nil (cd : CalcDist) (now : DT) (seg : List Point)
    (h : seg ≠ []) :
    ∃ f, mkTrackFile cd now seg = some f ∧ f.points = seg ∧
      f.point_count = seg.length := by
  cases seg with
  | nil => exact absurd rfl h
  | cons p rest => exact ⟨_, rfl, rfl, rfl⟩

theorem filterMap_mkTrackFile_points (cd : CalcDist) (now : DT) :
    ∀ segs : List (List Point), (∀ s ∈ segs, s ≠ []) →
      (segs.filterMap (mkTrackFile cd now)).map TrackFile.points = segs := by
  intro segs
  induction segs with
  | nil => intro _; rfl
  | cons s segs ih =>
    intro h
    obtain ⟨f, hf, hp, _⟩ :=
      mkTrackFile_of_ne_nil cd now s (h s (List.mem_cons_self s segs))
    simp only [List.filterMap_cons, hf, List.map_cons, hp]
    rw [ih (fun x hx => h x (List.mem_cons_of_mem s hx))]

theorem split_gpx_file_ok_inv {cd : CalcDist} {maxD maxT : ℚ} {rq : Bool}
    {now : DT} {doc : List TrkElem} {files : List TrackFile}
    (h : split_gpx_file cd maxD maxT rq now doc = .ok files) :
    parse_gpx_file cd now doc ≠ [] ∧
    sortPoints ((parse_gpx_file cd now doc).flatMap Track.points) ≠ [] ∧
    files = (splitPoints (splitCond cd maxD maxT)
        (sortPoints ((parse_gpx_file cd now doc).flatMap Track.points))).filterMap
      (mkTrackFile cd now) := by
  unfold split_gpx_file at h
  by_cases h1 : parse_gpx_file cd now doc = []
  · simp [h1] at h
  · simp only [h1, if_neg, if_false] at h
    by_cases h2 :
        sortPoints ((parse_gpx_file cd now doc).flatMap Track.points) = []
    · simp [h2] at h
    · simp only [h2, if_neg, if_false] at h
      exact ⟨h1, h2, (Except.ok.injEq _ _ ▸ h).symm⟩

/-- C1: in `split_gpx_file`, walking the timestamp-sorted flattened point
sequence, a new segment starts before a point exactly when the time
difference from the immediately previous point of the walk is at least
`max_time_hours` AND the distance from that point is at most
`max_distance_nm` (`chop` is the spec-worded boundary description;
`splitCond` is the source's conjunction test). -/
theorem C1_split_rule (cd : CalcDist) (maxD maxT : ℚ) (rq : Bool) (now : DT)
    (doc : List TrkElem) (files : List TrackFile)
    (h : split_gpx_file cd maxD maxT rq now doc = .ok files) :
    files.map TrackFile.points =
      chop (splitCond cd maxD maxT)
        (sortPoints ((parse_gpx_file cd now doc).flatMap Track.points)) := by
  obtain ⟨-, -, hfiles⟩ := split_gpx_file_ok_inv h
  rw [hfiles, filterMap_mkTrackFile_points _ _ _
    (mem_splitPoints_ne_nil (splitCond cd maxD maxT) _),
    splitPoints_eq_chop]

end GpxSplitter

namespace GpxSplitter

instance instDecEqExceptSplit : DecidableEq (Except SplitError (List TrackFile)) :=
  fun a b =>
  match a, b with
  | .error e, .error f =>
    if h : e = f then isTrue (by rw [h]) else isFalse (by simp [h])
  | .error _, .ok _ => isFalse (by simp)
  | .ok _, .error _ => isFalse (by simp)
  | .ok x, .ok y =>
    if h : x = y then isTrue (by rw [h]) else isFalse (by simp [h])

/-! ### Concrete fixtures for witnesses and counterexamples -/

/-- A constant-zero stand-in for the distance collaborator. -/
def sampleDistZero : CalcDist := fun _ _ _ _ => 0

/-- A constant-one stand-in for the distance collaborator. -/
def sampleDistOne : CalcDist := fun _ _ _ _ => 1

/-- A sample wall-clock value. -/
def sampleNow : DT := ⟨2024, 1, 1, 0, 0, 0, none⟩

/-- A different sample wall-clock value. -/
def sampleNow2 : DT := ⟨2024, 3, 5, 10, 30, 0, none⟩

/-- A document with one track holding one timestamped point. -/
def sampleDoc : List TrkElem :=
  [⟨none, [⟨some 0, some 0, some ("2024-01-01T00:00:00".toList)⟩]⟩]

/-- A document with one track holding one point with no time element. -/
def sampleDocNoTime : List TrkElem := [⟨none, [⟨some 0, some 0, none⟩]⟩]

/-- A document whose only track has a whitespace-only name text. -/
def sampleDocWsName : List TrkElem :=
  [⟨some (some [' ', ' ']), [⟨some 0, some 0, some ("2024-01-01T00:00:00".toList)⟩]⟩]

/-- A document whose only track has no `trkpt` children at all. -/
def sampleDocEmptyTrack : List TrkElem := [⟨none, []⟩]

/-- C1 witness at a concrete input. -/
theorem C1_split_rule_witness :
    split_gpx_file sampleDistZero 1 1 false sampleNow sampleDoc =
      .ok ((splitPoints (splitCond sampleDistZero 1 1)
        (sortPoints ((parse_gpx_file sampleDistZero sampleNow sampleDoc).flatMap
          Track.points))).filterMap (mkTrackFile sampleDistZero sampleNow)) ∧
    ((splitPoints (splitCond sampleDistZero 1 1)
        (sortPoints ((parse_gpx_file sampleDistZero sampleNow sampleDoc).flatMap
          Track.points))).filterMap (mkTrackFile sampleDistZero sampleNow)).map
        TrackFile.points =
      chop (splitCond sampleDistZero 1 1)
        (sortPoints ((parse_gpx_file sampleDistZero sampleNow sampleDoc).flatMap
          Track.points)) :=
  ⟨by decide, C1_split_rule sampleDistZero 1 1 false sampleNow sampleDoc _ (by decide)⟩

end GpxSplitter

namespace GpxSplitter

theorem filterMap_mkTrackFile_counts (cd : CalcDist) (now : DT) :
    ∀ segs : List (List Point), (∀ s ∈ segs, s ≠ []) →
      (segs.filterMap (mkTrackFile cd now)).map TrackFile.point_count =
        segs.map List.length := by
  intro segs
  induction segs with
  | nil => intro _; rfl
  | cons s segs ih =>
    intro h
    obtain ⟨f, hf, _, hc⟩ :=
      mkTrackFile_of_ne_nil cd now s (h s (List.mem_cons_self s segs))
    simp only [List.filterMap_cons, hf, List.map_cons, hc]
    rw [ih (fun x hx => h x (List.mem_cons_of_mem s hx))]

/-- C6: the segments emitted by `split_gpx_file`, concatenated in output
order, are exactly the timestamp-sorted flattened sequence of parsed
points; no segment is empty; the `point_count` values sum to the number of
parsed points. -/
theorem C6_conservation (cd : CalcDist) (maxD maxT : ℚ) (rq : Bool) (now : DT)
    (doc : List TrkElem) (files : List TrackFile)
    (h : split_gpx_file cd maxD maxT rq now doc = .ok files) :
    (files.map TrackFile.points).flatten =
      sortPoints ((parse_gpx_file cd now doc).flatMap Track.points) ∧
    (∀ f ∈ files, f.points ≠ []) ∧
    (files.map TrackFile.point_count).sum =
      ((parse_gpx_file cd now doc).flatMap Track.points).length := by
  obtain ⟨-, -, hfiles⟩ := split_gpx_file_ok_inv h
  have hne := mem_splitPoints_ne_nil (splitCond cd maxD maxT)
    (sortPoints ((parse_gpx_file cd now doc).flatMap Track.points))
  have hpts : files.map TrackFile.points =
      splitPoints (splitCond cd maxD maxT)
        (sortPoints ((parse_gpx_file cd now doc).flatMap Track.points)) := by
    rw [hfiles, filterMap_mkTrackFile_points _ _ _ hne]
  refine ⟨?_, ?_, ?_⟩
  · rw [hpts, splitPoints_flatten]
  · intro f hf
    have : f.points ∈ files.map TrackFile.points := List.mem_map_of_mem _ hf
    rw [hpts] at this
    exact hne _ this
  · have hcnt : files.map TrackFile.point_count =
        (splitPoints (splitCond cd maxD maxT)
          (sortPoints ((parse_gpx_file cd now doc).flatMap Track.points))).map
            List.length := by
      rw [hfiles, filterMap_mkTrackFile_counts _ _ _ hne]
    rw [hcnt, ← List.length_flatten, splitPoints_flatten]
    unfold sortPoints
    rw [List.length_insertionSort]

/-- C6 witness at a concrete input. -/
theorem C6_conservation_witness :
    split_gpx_file sampleDistZero 1 1 false sampleNow sampleDoc =
      .ok ((splitPoints (splitCond sampleDistZero 1 1)
        (sortPoints ((parse_gpx_file sampleDistZero sampleNow sampleDoc).flatMap
          Track.points))).filterMap (mkTrackFile sampleDistZero sampleNow)) ∧
    ((((splitPoints (splitCond sampleDistZero 1 1)
        (sortPoints ((parse_gpx_file sampleDistZero sampleNow sampleDoc).flatMap
          Track.points))).filterMap (mkTrackFile sampleDistZero sampleNow)).map
        TrackFile.points).flatten =
      sortPoints ((parse_gpx_file sampleDistZero sampleNow sampleDoc).flatMap
        Track.points) ∧
    (∀ f ∈ (splitPoints (splitCond sampleDistZero 1 1)
        (sortPoints ((parse_gpx_file sampleDistZero sampleNow sampleDoc).flatMap
          Track.points))).filterMap (mkTrackFile sampleDistZero sampleNow),
      f.points ≠ []) ∧
    (((splitPoints (splitCond sampleDistZero 1 1)
        (sortPoints ((parse_gpx_file sampleDistZero sampleNow sampleDoc).flatMap
          Track.points))).filterMap (mkTrackFile sampleDistZero sampleNow)).map
        TrackFile.point_count).sum =
      ((parse_gpx_file sampleDistZero sampleNow sampleDoc).flatMap
        Track.points).length) :=
  ⟨by decide,
   C6_conservation sampleDistZero 1 1 false sampleNow sampleDoc _ (by decide)⟩

end GpxSplitter

namespace GpxSplitter

theorem mkTrack_eq_some {cd : CalcDist} {nm : List Char} {pts : List Point}
    {t : Track} (h : mkTrack cd nm pts = some t) :
    t.name = nm ∧ t.points = pts ∧ t.points ≠ [] ∧
    (t.points.map Point.timestamp).head? = some t.start_time ∧
    (t.points.map Point.timestamp).getLast? = some t.end_time ∧
    t.duration = dtKey t.end_time - dtKey t.start_time ∧
    t.total_distance_nm = totalDistanceLoop cd t.points ∧
    t.point_count = t.points.length := by
  cases pts with
  | nil => exact absurd h (by simp [mkTrack])
  | cons p rest =>
    have ht : t = ⟨nm, p :: rest, p.timestamp,
        ((p :: rest).getLast (List.cons_ne_nil p rest)).timestamp,
        dtKey ((p :: rest).getLast (List.cons_ne_nil p rest)).timestamp
          - dtKey p.timestamp,
        totalDistanceLoop cd (p :: rest), (p :: rest).length⟩ := by
      have := h
      unfold mkTrack at this
      exact (Option.some.injEq _ _ ▸ this).symm
    subst ht
    refine ⟨rfl, rfl, by simp, by simp, ?_, rfl, rfl, rfl⟩
    rw [List.getLast?_map,
      List.getLast?_eq_getLast (p :: rest) (List.cons_ne_nil p rest)]
    rfl

theorem parse_mem_inv {cd : CalcDist} {now : DT} {doc : List TrkElem} {t : Track}
    (h : t ∈ parse_gpx_file cd now doc) :
    ∃ i trk, (i, trk) ∈ doc.enumFrom 0 ∧ parseTrackAt cd now i trk = some t := by
  unfold parse_gpx_file parseGpxFrom at h
  obtain ⟨⟨i, trk⟩, hmem, hp⟩ := List.mem_filterMap.mp h
  exact ⟨i, trk, hmem, hp⟩

theorem parseTrackAt_eq_some {cd : CalcDist} {now : DT} {i : ℕ} {trk : TrkElem}
    {t : Track} (h : parseTrackAt cd now i trk = some t) :
    t.name = trackNameOf i trk.name ∧ t.points ≠ [] ∧
    (t.points.map Point.timestamp).head? = some t.start_time ∧
    (t.points.map Point.timestamp).getLast? = some t.end_time ∧
    t.duration = dtKey t.end_time - dtKey t.start_time ∧
    t.total_distance_nm = totalDistanceLoop cd t.points ∧
    t.point_count = t.points.length := by
  obtain ⟨h1, _, h3, h4, h5, h6, h7, h8⟩ := mkTrack_eq_some h
  exact ⟨h1, h3, h4, h5, h6, h7, h8⟩

theorem mkTrackFile_eq_some {cd : CalcDist} {now : DT} {seg : List Point}
    {f : TrackFile} (h : mkTrackFile cd now seg = some f) :
    f.points = seg ∧ f.points ≠ [] ∧
    (f.points.map Point.timestamp).head? = some f.start_time ∧
    (f.points.map Point.timestamp).getLast? = some f.end_time ∧
    f.duration = dtKey f.end_time - dtKey f.start_time ∧
    f.total_distance_nm = totalDistanceLoop cd f.points ∧
    f.point_count = f.points.length := by
  cases seg with
  | nil => exact absurd h (by simp [mkTrackFile])
  | cons p rest =>
    have hf : f = ⟨generate_track_name cd now p.lat p.lon
          ((p :: rest).getLast (List.cons_ne_nil p rest)).lat
          ((p :: rest).getLast (List.cons_ne_nil p rest)).lon,
        create_gpx_content (p :: rest)
          (generate_track_name cd now p.lat p.lon
            ((p :: rest).getLast (List.cons_ne_nil p rest)).lat
            ((p :: rest).getLast (List.cons_ne_nil p rest)).lon),
        p.timestamp,
        ((p :: rest).getLast (List.cons_ne_nil p rest)).timestamp,
        dtKey ((p :: rest).getLast (List.cons_ne_nil p rest)).timestamp
          - dtKey p.timestamp,
        totalDistanceLoop cd (p :: rest), (p :: rest).length, p :: rest⟩ := by
      have := h
      unfold mkTrackFile at this
      exact (Option.some.injEq _ _ ▸ this).symm
    subst hf
    refine ⟨rfl, by simp, by simp, ?_, rfl, rfl, rfl⟩
    rw [List.getLast?_map,
      List.getLast?_eq_getLast (p :: rest) (List.cons_ne_nil p rest)]
    rfl

/-- The sum of consecutive-pair distances, as the spec words it. -/
def pairwiseDistanceSum (cd : CalcDist) (pts : List Point) : ℚ :=
  ((pts.zip pts.tail).map fun pq => cd pq.1.lat pq.1.lon pq.2.lat pq.2.lon).sum

theorem totalDistanceLoop_eq_pairwiseSum (cd : CalcDist) :
    ∀ pts, totalDistanceLoop cd pts = pairwiseDistanceSum cd pts := by
  intro pts
  induction pts with
  | nil => rfl
  | cons p rest ih =>
    cases rest with
    | nil => rfl
    | cons q rest2 =>
      show cd p.lat p.lon q.lat q.lon + totalDistanceLoop cd (q :: rest2) =
        pairwiseDistanceSum cd (p :: q :: rest2)
      rw [ih]
      unfold pairwiseDistanceSum
      simp only [List.tail_cons, List.zip_cons_cons, List.map_cons, List.sum_cons]

end GpxSplitter

namespace GpxSplitter

theorem split_by_tracks_ok_inv {cd : CalcDist} {now : DT} {doc : List TrkElem}
    {files : List TrackFile} (h : split_gpx_by_tracks cd now doc = .ok files) :
    parse_gpx_file cd now doc ≠ [] ∧
    files = (parse_gpx_file cd now doc).map (fun t =>
      ⟨t.name, create_gpx_content t.points t.name, t.start_time, t.end_time,
       t.duration, t.total_distance_nm, t.point_count, t.points⟩) := by
  unfold split_gpx_by_tracks at h
  by_cases h1 : parse_gpx_file cd now doc = []
  · simp [h1] at h
  · simp only [h1, if_neg, if_false] at h
    exact ⟨h1, (Except.ok.injEq _ _ ▸ h).symm⟩

/-- C3: every track emitted by `parse_gpx_file` and every record emitted by
`split_gpx_file` or `split_gpx_by_tracks` carries statistics derived from
its own point sequence: first/last timestamps, their difference as the
duration, the consecutive-pair distance sum, and the length as
`point_count`. -/
theorem C3_statistics (cd : CalcDist) (now : DT) (doc : List TrkElem)
    (maxD maxT : ℚ) (rq : Bool) :
    (∀ t ∈ parse_gpx_file cd now doc,
      (t.points.map Point.timestamp).head? = some t.start_time ∧
      (t.points.map Point.timestamp).getLast? = some t.end_time ∧
      t.duration = dtKey t.end_time - dtKey t.start_time ∧
      t.total_distance_nm = pairwiseDistanceSum cd t.points ∧
      t.point_count = t.points.length) ∧
    (∀ files, split_gpx_file cd maxD maxT rq now doc = .ok files →
      ∀ f ∈ files,
        (f.points.map Point.timestamp).head? = some f.start_time ∧
        (f.points.map Point.timestamp).getLast? = some f.end_time ∧
        f.duration = dtKey f.end_time - dtKey f.start_time ∧
        f.total_distance_nm = pairwiseDistanceSum cd f.points ∧
        f.point_count = f.points.length) ∧
    (∀ files, split_gpx_by_tracks cd now doc = .ok files →
      ∀ f ∈ files,
        (f.points.map Point.timestamp).head? = some f.start_time ∧
        (f.points.map Point.timestamp).getLast? = some f.end_time ∧
        f.duration = dtKey f.end_time - dtKey f.start_time ∧
        f.total_distance_nm = pairwiseDistanceSum cd f.points ∧
        f.point_count = f.points.length) := by
  have hparse : ∀ t ∈ parse_gpx_file cd now doc,
      (t.points.map Point.timestamp).head? = some t.start_time ∧
      (t.points.map Point.timestamp).getLast? = some t.end_time ∧
      t.duration = dtKey t.end_time - dtKey t.start_time ∧
      t.total_distance_nm = pairwiseDistanceSum cd t.points ∧
      t.point_count = t.points.length := by
    intro t ht
    obtain ⟨i, trk, -, hp⟩ := parse_mem_inv ht
    obtain ⟨-, -, h4, h5, h6, h7, h8⟩ := parseTrackAt_eq_some hp
    exact ⟨h4, h5, h6, totalDistanceLoop_eq_pairwiseSum cd t.points ▸ h7, h8⟩
  refine ⟨hparse, ?_, ?_⟩
  · intro files hok f hf
    obtain ⟨-, -, hfiles⟩ := split_gpx_file_ok_inv hok
    rw [hfiles] at hf
    obtain ⟨seg, -, hs⟩ := List.mem_filterMap.mp hf
    obtain ⟨-, -, h3, h4, h5, h6, h7⟩ := mkTrackFile_eq_some hs
    exact ⟨h3, h4, h5, totalDistanceLoop_eq_pairwiseSum cd f.points ▸ h6, h7⟩
  · intro files hok f hf
    obtain ⟨-, hfiles⟩ := split_by_tracks_ok_inv hok
    rw [hfiles] at hf
    obtain ⟨t, ht, hconv⟩ := List.mem_map.mp hf
    obtain ⟨h1, h2, h3, h4, h5⟩ := hparse t ht
    rw [← hconv]
    exact ⟨h1, h2, h3, h4, h5⟩

/-- The single track `sampleDoc` parses to. -/
def sampleParsedTrack : Track :=
  ⟨"Track_001".toList, [⟨0, 0, ⟨2024, 1, 1, 0, 0, 0, none⟩⟩],
   ⟨2024, 1, 1, 0, 0, 0, none⟩, ⟨2024, 1, 1, 0, 0, 0, none⟩, 0, 0, 1⟩

/-- The `split_gpx_file` output expression on the sample fixtures. -/
def sampleSplitFiles : List TrackFile :=
  (splitPoints (splitCond sampleDistZero 1 1)
    (sortPoints ((parse_gpx_file sampleDistZero sampleNow sampleDoc).flatMap
      Track.points))).filterMap (mkTrackFile sampleDistZero sampleNow)

/-- The `split_gpx_by_tracks` output expression on the sample fixtures. -/
def sampleByTrackFiles : List TrackFile :=
  (parse_gpx_file sampleDistZero sampleNow sampleDoc).map (fun t =>
    ⟨t.name, create_gpx_content t.points t.name, t.start_time, t.end_time,
     t.duration, t.total_distance_nm, t.point_count, t.points⟩)

/-- C3 witness at a concrete input. -/
theorem C3_statistics_witness :
    (sampleParsedTrack ∈ parse_gpx_file sampleDistZero sampleNow sampleDoc ∧
      ((sampleParsedTrack.points.map Point.timestamp).head? =
          some sampleParsedTrack.start_time ∧
        (sampleParsedTrack.points.map Point.timestamp).getLast? =
          some sampleParsedTrack.end_time ∧
        sampleParsedTrack.duration =
          dtKey sampleParsedTrack.end_time - dtKey sampleParsedTrack.start_time ∧
        sampleParsedTrack.total_distance_nm =
          pairwiseDistanceSum sampleDistZero sampleParsedTrack.points ∧
        sampleParsedTrack.point_count = sampleParsedTrack.points.length)) ∧
    (split_gpx_file sampleDistZero 1 1 false sampleNow sampleDoc =
        .ok sampleSplitFiles ∧
      ∀ f ∈ sampleSplitFiles,
        (f.points.map Point.timestamp).head? = some f.start_time ∧
        (f.points.map Point.timestamp).getLast? = some f.end_time ∧
        f.duration = dtKey f.end_time - dtKey f.start_time ∧
        f.total_distance_nm = pairwiseDistanceSum sampleDistZero f.points ∧
        f.point_count = f.points.length) ∧
    (split_gpx_by_tracks sampleDistZero sampleNow sampleDoc =
        .ok sampleByTrackFiles ∧
      ∀ f ∈ sampleByTrackFiles,
        (f.points.map Point.timestamp).head? = some f.start_time ∧
        (f.points.map Point.timestamp).getLast? = some f.end_time ∧
        f.duration = dtKey f.end_time - dtKey f.start_time ∧
        f.total_distance_nm = pairwiseDistanceSum sampleDistZero f.points ∧
        f.point_count = f.points.length) :=
  ⟨⟨by decide,
    (C3_statistics sampleDistZero sampleNow sampleDoc 1 1 false).1
      sampleParsedTrack (by decide)⟩,
   ⟨by decide,
    (C3_statistics sampleDistZero sampleNow sampleDoc 1 1 false).2.1
      sampleSplitFiles (by decide)⟩,
   ⟨by decide,
    (C3_statistics sampleDistZero sampleNow sampleDoc 1 1 false).2.2
      sampleByTrackFiles (by decide)⟩⟩

theorem sortPoints_eq_nil {l : List Point} (h : sortPoints l = []) : l = [] := by
  have := List.length_insertionSort
    (fun p q : Point => dtKey p.timestamp ≤ dtKey q.timestamp) l
  unfold sortPoints at h
  rw [h] at this
  exact List.length_eq_zero.mp this.symm

/-- C8: every track returned by `parse_gpx_file` has at least one point,
so with a non-empty track list the flattened point sequence is non-empty
and `split_gpx_file` can never take the empty-points `ValidationError`
branch. -/
theorem C8_nonempty_points (cd : CalcDist) (now : DT) (doc : List TrkElem)
    (maxD maxT : ℚ) (rq : Bool) :
    (∀ t ∈ parse_gpx_file cd now doc, t.points ≠ []) ∧
    (parse_gpx_file cd now doc ≠ [] →
      split_gpx_file cd maxD maxT rq now doc ≠ .error .noPoints) := by
  have h1 : ∀ t ∈ parse_gpx_file cd now doc, t.points ≠ [] := by
    intro t ht
    obtain ⟨i, trk, -, hp⟩ := parse_mem_inv ht
    exact (parseTrackAt_eq_some hp).2.1
  refine ⟨h1, ?_⟩
  intro hne hcontra
  unfold split_gpx_file at hcontra
  rw [if_neg hne] at hcontra
  have hflat : (parse_gpx_file cd now doc).flatMap Track.points ≠ [] := by
    intro hnil
    rcases hx : parse_gpx_file cd now doc with _ | ⟨t0, ts⟩
    · exact hne hx
    · have : t0.points = [] :=
        (List.flatMap_eq_nil_iff.mp hnil) t0 (hx ▸ List.mem_cons_self t0 ts)
      exact h1 t0 (hx ▸ List.mem_cons_self t0 ts) this
  have hsort : sortPoints ((parse_gpx_file cd now doc).flatMap Track.points) ≠ [] :=
    fun hs => hflat (sortPoints_eq_nil hs)
  rw [if_neg hsort] at hcontra
  exact Except.noConfusion hcontra

/-- C8 witness at a concrete input. -/
theorem C8_nonempty_points_witness :
    (sampleParsedTrack ∈ parse_gpx_file sampleDistZero sampleNow sampleDoc ∧
      sampleParsedTrack.points ≠ []) ∧
    (parse_gpx_file sampleDistZero sampleNow sampleDoc ≠ [] ∧
      split_gpx_file sampleDistZero 1 1 false sampleNow sampleDoc ≠
        .error .noPoints) :=
  ⟨⟨by decide,
    (C8_nonempty_points sampleDistZero sampleNow sampleDoc 1 1 false).1
      sampleParsedTrack (by decide)⟩,
   ⟨by decide,
    (C8_nonempty_points sampleDistZero sampleNow sampleDoc 1 1 false).2
      (by decide)⟩⟩

end GpxSplitter

namespace GpxSplitter

/-- C5 counterexample: for a document whose only track has no points,
`parse_gpx_file` RETURNS the empty list (an ordinary return value — its
only raise sites are for malformed XML, below this tree model); the
`No valid tracks` error is raised by the two split entry points instead. -/
theorem C5_counterexample :
    parse_gpx_file sampleDistZero sampleNow sampleDocEmptyTrack = [] ∧
    split_gpx_file sampleDistZero 1 1 false sampleNow sampleDocEmptyTrack =
      .error .noTracks ∧
    split_gpx_by_tracks sampleDistZero sampleNow sampleDocEmptyTrack =
      .error .noTracks := by
  refine ⟨by decide, by decide, by decide⟩

/-- C5 (amended): a track element whose point-level parsing yields zero
points is dropped from the result without error (later elements keeping
their indices); when zero tracks survive, `parse_gpx_file` returns the
empty list and the two split entry points raise the `No valid tracks
found` `ValueError`. -/
theorem C5_zero_point_tracks (cd : CalcDist) (now : DT) :
    (∀ (i0 : ℕ) (trk : TrkElem) (rest : List TrkElem),
      ((trk.trkpts.enum).filterMap fun jp => parsePoint now jp.1 jp.2) = [] →
      parseGpxFrom cd now i0 (trk :: rest) = parseGpxFrom cd now (i0 + 1) rest) ∧
    (∀ (doc : List TrkElem) (maxD maxT : ℚ) (rq : Bool),
      parse_gpx_file cd now doc = [] →
      split_gpx_file cd maxD maxT rq now doc = .error .noTracks ∧
      split_gpx_by_tracks cd now doc = .error .noTracks) := by
  constructor
  · intro i0 trk rest hempty
    show ((trk :: rest).enumFrom i0).filterMap
        (fun it => parseTrackAt cd now it.1 it.2) = _
    have hcons : (trk :: rest).enumFrom i0 = (i0, trk) :: rest.enumFrom (i0 + 1) := rfl
    rw [hcons, List.filterMap_cons]
    have hnone : parseTrackAt cd now i0 trk = none := by
      unfold parseTrackAt
      rw [hempty]
      rfl
    rw [hnone]
    rfl
  · intro doc maxD maxT rq hnil
    constructor
    · unfold split_gpx_file
      rw [if_pos hnil]
    · unfold split_gpx_by_tracks
      rw [if_pos hnil]

/-- C5 witness at a concrete input. -/
theorem C5_zero_point_tracks_witness :
    ((((⟨none, []⟩ : TrkElem).trkpts.enum).filterMap fun jp =>
        parsePoint sampleNow jp.1 jp.2) = [] ∧
      parseGpxFrom sampleDistZero sampleNow 0 [⟨none, []⟩] =
        parseGpxFrom sampleDistZero sampleNow 1 []) ∧
    (parse_gpx_file sampleDistZero sampleNow sampleDocEmptyTrack = [] ∧
      split_gpx_file sampleDistZero 1 1 false sampleNow sampleDocEmptyTrack =
        .error .noTracks ∧
      split_gpx_by_tracks sampleDistZero sampleNow sampleDocEmptyTrack =
        .error .noTracks) :=
  ⟨⟨by decide,
    (C5_zero_point_tracks sampleDistZero sampleNow).1 0 ⟨none, []⟩ [] (by decide)⟩,
   ⟨by decide,
    (C5_zero_point_tracks sampleDistZero sampleNow).2 sampleDocEmptyTrack 1 1
      false (by decide)⟩⟩

/-- The whitespace-named track element of `sampleDocWsName`. -/
def sampleWsTrk : TrkElem :=
  ⟨some (some [' ', ' ']), [⟨some 0, some 0, some ("2024-01-01T00:00:00".toList)⟩]⟩

/-- C7 counterexample: a track whose name text is whitespace-only gets the
EMPTY name (the truthiness test precedes stripping), not the default
`Track_001` the claim requires for a name that is empty after trimming. -/
theorem C7_counterexample :
    (parse_gpx_file sampleDistZero sampleNow sampleDocWsName).map Track.name =
      [[]] ∧
    ([] : List Char) ≠ defaultTrackName 0 := by
  refine ⟨by decide, by decide⟩

/-- C7 (amended): the default `Track_{i+1:03d}` name is used exactly when
the name child is absent, has no text, or has the empty string as text
(tested BEFORE trimming); otherwise the name is the trimmed text — which
is empty for a whitespace-only name. -/
theorem C7_track_name (cd : CalcDist) (now : DT) (i : ℕ) (trk : TrkElem)
    (t : Track) (h : parseTrackAt cd now i trk = some t) :
    t.name = match trk.name with
      | some (some txt) => if txt = [] then defaultTrackName i else pyStrip txt
      | some none => defaultTrackName i
      | none => defaultTrackName i := by
  have h1 := (mkTrack_eq_some h).1
  rw [h1]
  unfold trackNameOf
  rcases trk.name with _ | ⟨_ | txt⟩
  · rfl
  · rfl
  · by_cases he : txt = []
    · simp [he]
    · simp [he]

/-- The track `sampleDocWsName` parses to (empty name). -/
def sampleWsTrack : Track :=
  ⟨[], [⟨0, 0, ⟨2024, 1, 1, 0, 0, 0, none⟩⟩],
   ⟨2024, 1, 1, 0, 0, 0, none⟩, ⟨2024, 1, 1, 0, 0, 0, none⟩, 0, 0, 1⟩

/-- C7 witness at a concrete input. -/
theorem C7_track_name_witness :
    parseTrackAt sampleDistZero sampleNow 0 sampleWsTrk = some sampleWsTrack ∧
    sampleWsTrack.name = match sampleWsTrk.name with
      | some (some txt) => if txt = [] then defaultTrackName 0 else pyStrip txt
      | some none => defaultTrackName 0
      | none => defaultTrackName 0 :=
  ⟨by decide, C7_track_name sampleDistZero sampleNow 0 sampleWsTrk sampleWsTrack
    (by decide)⟩

end GpxSplitter

namespace GpxSplitter

/-! ### Clock (in)dependence -/

/-- A time text on which the three-step parse chain of `resolveTime`
succeeds, so that no synthetic `now`-based timestamp is needed. -/
def timeTextResolvesB (s? : Option (List Char)) : Bool :=
  match s? with
  | some s =>
    !s.isEmpty &&
      (resolveTimeChain (if endsZ (pyStrip s) then replaceZ (pyStrip s)
        else pyStrip s)).isSome
  | none => false

/-- Every point of the document that survives lat/lon parsing has a time
text the parse chain accepts. -/
def TimesResolve (doc : List TrkElem) : Prop :=
  ∀ trk ∈ doc, ∀ pt ∈ trk.trkpts,
    pt.lat.isSome → pt.lon.isSome → timeTextResolvesB pt.time = true

instance (doc : List TrkElem) : Decidable (TimesResolve doc) := by
  unfold TimesResolve; infer_instance

/-- A segment whose endpoints the distance collaborator places at least
0.1 nautical miles apart, keeping `generate_track_name` off its
wall-clock branch. -/
def segFarB (cd : CalcDist) (seg : List Point) : Bool :=
  match seg.head?, seg.getLast? with
  | some p, some q => !decide (cd p.lat p.lon q.lat q.lon < mkRat 1 10)
  | _, _ => true

theorem resolveTime_now_indep {t : Option (List Char)}
    (h : timeTextResolvesB t = true) (now now' : DT) (j : ℕ) :
    resolveTime now j t = resolveTime now' j t := by
  rcases t with _ | s
  · simp [timeTextResolvesB] at h
  · unfold timeTextResolvesB at h
    rw [Bool.and_eq_true] at h
    obtain ⟨h1, h2⟩ := h
    obtain ⟨dt, hdt⟩ := Option.isSome_iff_exists.mp h2
    have hs : s ≠ [] := by
      intro hs; rw [hs] at h1; simp at h1
    simp only [resolveTime, hs, reduceIte, ne_eq, not_false_eq_true, hdt]

theorem parsePoint_now_indep {pt : TrkptElem}
    (h : pt.lat.isSome → pt.lon.isSome → timeTextResolvesB pt.time = true)
    (now now' : DT) (j : ℕ) :
    parsePoint now j pt = parsePoint now' j pt := by
  unfold parsePoint
  rcases hl : pt.lat with _ | la
  · rfl
  · rcases ho : pt.lon with _ | lo
    · rfl
    · have := h (by rw [hl]; rfl) (by rw [ho]; rfl)
      rw [resolveTime_now_indep this now now' j]

theorem parseTrackAt_now_indep {trk : TrkElem}
    (h : ∀ pt ∈ trk.trkpts,
      pt.lat.isSome → pt.lon.isSome → timeTextResolvesB pt.time = true)
    (cd : CalcDist) (now now' : DT) (i : ℕ) :
    parseTrackAt cd now i trk = parseTrackAt cd now' i trk := by
  unfold parseTrackAt
  have : ((trk.trkpts.enum).filterMap fun jp => parsePoint now jp.1 jp.2) =
      (trk.trkpts.enum).filterMap fun jp => parsePoint now' jp.1 jp.2 := by
    apply List.filterMap_congr
    intro jp hjp
    rcases jp with ⟨j, pt⟩
    have hm := List.mem_enumFrom hjp
    have hpt : pt ∈ trk.trkpts := by
      rw [hm.2.2]
      exact List.getElem_mem _
    exact parsePoint_now_indep (h pt hpt) now now' j
  rw [this]

theorem parse_now_indep {doc : List TrkElem} (h : TimesResolve doc)
    (cd : CalcDist) (now now' : DT) :
    parse_gpx_file cd now doc = parse_gpx_file cd now' doc := by
  unfold parse_gpx_file parseGpxFrom
  apply List.filterMap_congr
  intro it hit
  rcases it with ⟨i, trk⟩
  have hm := List.mem_enumFrom hit
  have htrk : trk ∈ doc := by
    rw [hm.2.2]
    exact List.getElem_mem _
  exact parseTrackAt_now_indep (h trk htrk) cd now now' i

theorem mkTrackFile_now_indep {cd : CalcDist} {seg : List Point}
    (h : segFarB cd seg = true) (now now' : DT) :
    mkTrackFile cd now seg = mkTrackFile cd now' seg := by
  cases seg with
  | nil => rfl
  | cons p rest =>
    unfold segFarB at h
    have hh : (p :: rest).head? = some p := rfl
    rw [hh, List.getLast?_eq_getLast (p :: rest) (List.cons_ne_nil p rest)] at h
    simp only [Bool.not_eq_true'] at h
    have hfar : ¬ (cd p.lat p.lon
        ((p :: rest).getLast (List.cons_ne_nil p rest)).lat
        ((p :: rest).getLast (List.cons_ne_nil p rest)).lon < mkRat 1 10) :=
      of_decide_eq_false h
    simp only [mkTrackFile, generate_track_name, if_neg hfar]

/-- C10 (amended): `calculate_distance` and `create_gpx_content` are pure
functions of their arguments, but `parse_gpx_file`, `split_gpx_file` and
`split_gpx_by_tracks` read the wall clock.  When every surviving point's
timestamp resolves from its time text, `parse_gpx_file` and
`split_gpx_by_tracks` are clock-independent; `split_gpx_file` additionally
needs every emitted segment's endpoints at least 0.1 nm apart, since
`generate_track_name` otherwise stamps the segment with the current time. -/
theorem C10_clock_dependence (cd : CalcDist) (now now' : DT)
    (doc : List TrkElem) (maxD maxT : ℚ) (rq : Bool)
    (hres : TimesResolve doc) :
    parse_gpx_file cd now doc = parse_gpx_file cd now' doc ∧
    split_gpx_by_tracks cd now doc = split_gpx_by_tracks cd now' doc ∧
    ((∀ seg ∈ splitPoints (splitCond cd maxD maxT)
        (sortPoints ((parse_gpx_file cd now doc).flatMap Track.points)),
      segFarB cd seg = true) →
      split_gpx_file cd maxD maxT rq now doc =
        split_gpx_file cd maxD maxT rq now' doc) := by
  have hp := parse_now_indep hres cd now now'
  refine ⟨hp, ?_, ?_⟩
  · unfold split_gpx_by_tracks
    rw [hp]
  · intro hfar
    unfold split_gpx_file
    rw [← hp]
    by_cases h1 : parse_gpx_file cd now doc = []
    · simp [h1]
    · simp only [h1, if_neg, if_false]
      by_cases h2 :
          sortPoints ((parse_gpx_file cd now doc).flatMap Track.points) = []
      · simp [h2]
      · simp only [h2, if_neg, if_false]
        congr 1
        apply List.filterMap_congr
        intro seg hseg
        exact mkTrackFile_now_indep (hfar seg hseg) now now'

/-- C10 counterexample: with a missing time element the parsed timestamp
is synthesized from `datetime.now()`, so two runs at different wall-clock
instants return different results from identical inputs. -/
theorem C10_counterexample :
    parse_gpx_file sampleDistZero sampleNow sampleDocNoTime ≠
      parse_gpx_file sampleDistZero sampleNow2 sampleDocNoTime := by
  decide

/-- C10 witness at a concrete input. -/
theorem C10_clock_dependence_witness :
    TimesResolve sampleDoc ∧
    (parse_gpx_file sampleDistOne sampleNow sampleDoc =
        parse_gpx_file sampleDistOne sampleNow2 sampleDoc ∧
      split_gpx_by_tracks sampleDistOne sampleNow sampleDoc =
        split_gpx_by_tracks sampleDistOne sampleNow2 sampleDoc ∧
      ((∀ seg ∈ splitPoints (splitCond sampleDistOne 1 1)
          (sortPoints ((parse_gpx_file sampleDistOne sampleNow sampleDoc).flatMap
            Track.points)),
        segFarB sampleDistOne seg = true) →
        split_gpx_file sampleDistOne 1 1 false sampleNow sampleDoc =
          split_gpx_file sampleDistOne 1 1 false sampleNow2 sampleDoc)) :=
  ⟨by decide,
   C10_clock_dependence sampleDistOne sampleNow sampleNow2 sampleDoc 1 1 false
     (by decide)⟩

end GpxSplitter

namespace GpxSplitter

/-! ### Round-trip lemmas for the serializer -/

theorem toDigit_digitChar {n : ℕ} (h : n ≤ 9) : toDigit (digitChar n) = some n := by
  interval_cases n <;> decide

theorem digitChar_not_space {n : ℕ} (h : n ≤ 9) :
    isPySpace (digitChar n) = false := by
  interval_cases n <;> decide

theorem digitChar_ne_Z {n : ℕ} (h : n ≤ 9) : digitChar n ≠ 'Z' := by
  interval_cases n <;> decide

theorem digits2_digitChar {n : ℕ} (h : n ≤ 99) :
    digits2 (digitChar (n / 10)) (digitChar (n % 10)) = some n := by
  unfold digits2
  rw [toDigit_digitChar (by omega), toDigit_digitChar (by omega)]
  show some (10 * (n / 10) + n % 10) = some n
  congr 1
  omega

theorem digits4_digitChar {n : ℕ} (h : n ≤ 9999) :
    digits4 (digitChar (n / 1000)) (digitChar (n / 100 % 10))
      (digitChar (n / 10 % 10)) (digitChar (n % 10)) = some n := by
  unfold digits4
  rw [toDigit_digitChar (by omega), toDigit_digitChar (by omega),
    toDigit_digitChar (by omega), toDigit_digitChar (by omega)]
  show some (1000 * (n / 1000) + 100 * (n / 100 % 10) + 10 * (n / 10 % 10) + n % 10)
    = some n
  congr 1
  omega

theorem pyStrip_eq_self {s : List Char}
    (h1 : ∀ c, s.head? = some c → isPySpace c = false)
    (h2 : ∀ c, s.getLast? = some c → isPySpace c = false) :
    pyStrip s = s := by
  cases s with
  | nil => rfl
  | cons a l =>
    have ha := h1 a rfl
    have hd1 : List.dropWhile isPySpace (a :: l) = a :: l :=
      List.dropWhile_cons_of_neg (by simp [ha])
    rcases hlast : (a :: l).getLast? with _ | c
    · simp at hlast
    · have hc := h2 c hlast
      rcases hrev : (a :: l).reverse with _ | ⟨c', r⟩
      · simp at hrev
      · have hc' : c' = c := by
          have hh : (a :: l).reverse.head? = (a :: l).getLast? :=
            List.head?_reverse _
          rw [hrev, hlast] at hh
          exact (Option.some.injEq _ _ ▸ hh)
        have hd2 : List.dropWhile isPySpace (c' :: r) = c' :: r :=
          List.dropWhile_cons_of_neg (by simp [hc', hc])
        show ((((a :: l).dropWhile isPySpace).reverse).dropWhile
          isPySpace).reverse = a :: l
        rw [hd1, hrev, hd2, ← hrev, List.reverse_reverse]

end GpxSplitter

namespace GpxSplitter

theorem daysInMonth_le (y m : ℕ) : daysInMonth y m ≤ 31 := by
  unfold daysInMonth
  split
  · split <;> omega
  · split <;> omega

theorem offsetVal_plus {na : ℕ} (h : na ≤ 1439) :
    offsetVal '+' (digitChar (na / 60 / 10)) (digitChar (na / 60 % 10))
      (digitChar (na % 60 / 10)) (digitChar (na % 60 % 10)) = some (na : ℤ) := by
  unfold offsetVal
  rw [digits2_digitChar (by omega), digits2_digitChar (by omega)]
  show (if na / 60 ≤ 23 ∧ na % 60 ≤ 59 then
    if ('+' : Char) = '+' then
      some (((na / 60 : ℕ) : ℤ) * 60 + ((na % 60 : ℕ) : ℤ))
    else if ('+' : Char) = '-' then
      some (-(((na / 60 : ℕ) : ℤ) * 60 + ((na % 60 : ℕ) : ℤ)))
    else none
  else none) = some (na : ℤ)
  rw [if_pos (by constructor <;> omega), if_pos rfl]
  congr 1
  push_cast
  omega

theorem offsetVal_minus {na : ℕ} (h : na ≤ 1439) :
    offsetVal '-' (digitChar (na / 60 / 10)) (digitChar (na / 60 % 10))
      (digitChar (na % 60 / 10)) (digitChar (na % 60 % 10)) =
      some (-(na : ℤ)) := by
  unfold offsetVal
  rw [digits2_digitChar (by omega), digits2_digitChar (by omega)]
  show (if na / 60 ≤ 23 ∧ na % 60 ≤ 59 then
    if ('-' : Char) = '+' then
      some (((na / 60 : ℕ) : ℤ) * 60 + ((na % 60 : ℕ) : ℤ))
    else if ('-' : Char) = '-' then
      some (-(((na / 60 : ℕ) : ℤ) * 60 + ((na % 60 : ℕ) : ℤ)))
    else none
  else none) = some (-(na : ℤ))
  rw [if_pos (by constructor <;> omega), if_neg (by decide), if_pos rfl]
  congr 1
  push_cast
  omega

theorem fromisoformatM_isoPrint {dt : DT} (h : dt.WF) :
    fromisoformatM (isoPrint dt) = some dt := by
  rcases dt with ⟨y, mo, d, hh, mi, ss, tz⟩
  obtain ⟨h1, h2, h3, h4, h5, h6, h7, h8, h9, h10⟩ := h
  simp only at h1 h2 h3 h4 h5 h6 h7 h8 h9 h10
  have hd99 : d ≤ 99 := le_trans h6 (le_trans (daysInMonth_le y mo) (by omega))
  rcases tz with _ | z
  · have e : isoPrint ⟨y, mo, d, hh, mi, ss, none⟩ =
        [digitChar (y / 1000), digitChar (y / 100 % 10), digitChar (y / 10 % 10),
         digitChar (y % 10), '-', digitChar (mo / 10), digitChar (mo % 10), '-',
         digitChar (d / 10), digitChar (d % 10), 'T', digitChar (hh / 10),
         digitChar (hh % 10), ':', digitChar (mi / 10), digitChar (mi % 10), ':',
         digitChar (ss / 10), digitChar (ss % 10)] := by
      simp [isoPrint, pad4, pad2]
    rw [e]
    show (if ('-' : Char) = '-' ∧ ('-' : Char) = '-' ∧ ('T' : Char) = 'T' ∧
        (':' : Char) = ':' ∧ (':' : Char) = ':' then
      match digits4 (digitChar (y / 1000)) (digitChar (y / 100 % 10))
          (digitChar (y / 10 % 10)) (digitChar (y % 10)),
        digits2 (digitChar (mo / 10)) (digitChar (mo % 10)),
        digits2 (digitChar (d / 10)) (digitChar (d % 10)),
        digits2 (digitChar (hh / 10)) (digitChar (hh % 10)),
        digits2 (digitChar (mi / 10)) (digitChar (mi % 10)),
        digits2 (digitChar (ss / 10)) (digitChar (ss % 10)) with
      | some yv, some mov, some dv, some hv, some nv, some sv =>
        mkDTIf yv mov dv hv nv sv none
      | _, _, _, _, _, _ => none
    else none) = some ⟨y, mo, d, hh, mi, ss, none⟩
    rw [if_pos (by decide)]
    rw [digits4_digitChar (by omega), digits2_digitChar (by omega),
      digits2_digitChar hd99, digits2_digitChar (by omega),
      digits2_digitChar (by omega), digits2_digitChar (by omega)]
    show mkDTIf y mo d hh mi ss none = some ⟨y, mo, d, hh, mi, ss, none⟩
    unfold mkDTIf
    rw [if_pos ⟨h1, h3, h4, h5, h6, h7, h8, h9⟩]
  · have hna : z.natAbs ≤ 1439 := h10 z rfl
    by_cases hz : 0 ≤ z
    · have e : isoPrint ⟨y, mo, d, hh, mi, ss, some z⟩ =
          [digitChar (y / 1000), digitChar (y / 100 % 10), digitChar (y / 10 % 10),
           digitChar (y % 10), '-', digitChar (mo / 10), digitChar (mo % 10), '-',
           digitChar (d / 10), digitChar (d % 10), 'T', digitChar (hh / 10),
           digitChar (hh % 10), ':', digitChar (mi / 10), digitChar (mi % 10), ':',
           digitChar (ss / 10), digitChar (ss % 10), '+',
           digitChar (z.natAbs / 60 / 10), digitChar (z.natAbs / 60 % 10), ':',
           digitChar (z.natAbs % 60 / 10), digitChar (z.natAbs % 60 % 10)] := by
        simp [isoPrint, pad4, pad2, hz]
      rw [e]
      show (if ('-' : Char) = '-' ∧ ('-' : Char) = '-' ∧ ('T' : Char) = 'T' ∧
          (':' : Char) = ':' ∧ (':' : Char) = ':' then
        match digits4 (digitChar (y / 1000)) (digitChar (y / 100 % 10))
            (digitChar (y / 10 % 10)) (digitChar (y % 10)),
          digits2 (digitChar (mo / 10)) (digitChar (mo % 10)),
          digits2 (digitChar (d / 10)) (digitChar (d % 10)),
          digits2 (digitChar (hh / 10)) (digitChar (hh % 10)),
          digits2 (digitChar (mi / 10)) (digitChar (mi % 10)),
          digits2 (digitChar (ss / 10)) (digitChar (ss % 10)) with
        | some yv, some mov, some dv, some hv, some nv, some sv =>
          if (':' : Char) = ':' then
            match offsetVal '+' (digitChar (z.natAbs / 60 / 10))
                (digitChar (z.natAbs / 60 % 10)) (digitChar (z.natAbs % 60 / 10))
                (digitChar (z.natAbs % 60 % 10)) with
            | some tzv => mkDTIf yv mov dv hv nv sv (some tzv)
            | none => none
          else none
        | _, _, _, _, _, _ => none
      else none) = some ⟨y, mo, d, hh, mi, ss, some z⟩
      rw [if_pos (by decide)]
      rw [digits4_digitChar (by omega), digits2_digitChar (by omega),
        digits2_digitChar hd99, digits2_digitChar (by omega),
        digits2_digitChar (by omega), digits2_digitChar (by omega)]
      show (if (':' : Char) = ':' then
        match offsetVal '+' (digitChar (z.natAbs / 60 / 10))
            (digitChar (z.natAbs / 60 % 10)) (digitChar (z.natAbs % 60 / 10))
            (digitChar (z.natAbs % 60 % 10)) with
        | some tzv => mkDTIf y mo d hh mi ss (some tzv)
        | none => none
      else none) = some ⟨y, mo, d, hh, mi, ss, some z⟩
      rw [if_pos rfl, offsetVal_plus hna]
      show mkDTIf y mo d hh mi ss (some (z.natAbs : ℤ)) =
        some ⟨y, mo, d, hh, mi, ss, some z⟩
      unfold mkDTIf
      rw [if_pos ⟨h1, h3, h4, h5, h6, h7, h8, h9⟩, Int.natAbs_of_nonneg hz]
    · have e : isoPrint ⟨y, mo, d, hh, mi, ss, some z⟩ =
          [digitChar (y / 1000), digitChar (y / 100 % 10), digitChar (y / 10 % 10),
           digitChar (y % 10), '-', digitChar (mo / 10), digitChar (mo % 10), '-',
           digitChar (d / 10), digitChar (d % 10), 'T', digitChar (hh / 10),
           digitChar (hh % 10), ':', digitChar (mi / 10), digitChar (mi % 10), ':',
           digitChar (ss / 10), digitChar (ss % 10), '-',
           digitChar (z.natAbs / 60 / 10), digitChar (z.natAbs / 60 % 10), ':',
           digitChar (z.natAbs % 60 / 10), digitChar (z.natAbs % 60 % 10)] := by
        simp [isoPrint, pad4, pad2, hz]
      rw [e]
      show (if ('-' : Char) = '-' ∧ ('-' : Char) = '-' ∧ ('T' : Char) = 'T' ∧
          (':' : Char) = ':' ∧ (':' : Char) = ':' then
        match digits4 (digitChar (y / 1000)) (digitChar (y / 100 % 10))
            (digitChar (y / 10 % 10)) (digitChar (y % 10)),
          digits2 (digitChar (mo / 10)) (digitChar (mo % 10)),
          digits2 (digitChar (d / 10)) (digitChar (d % 10)),
          digits2 (digitChar (hh / 10)) (digitChar (hh % 10)),
          digits2 (digitChar (mi / 10)) (digitChar (mi % 10)),
          digits2 (digitChar (ss / 10)) (digitChar (ss % 10)) with
        | some yv, some mov, some dv, some hv, some nv, some sv =>
          if (':' : Char) = ':' then
            match offsetVal '-' (digitChar (z.natAbs / 60 / 10))
                (digitChar (z.natAbs / 60 % 10)) (digitChar (z.natAbs % 60 / 10))
                (digitChar (z.natAbs % 60 % 10)) with
            | some tzv => mkDTIf yv mov dv hv nv sv (some tzv)
            | none => none
          else none
        | _, _, _, _, _, _ => none
      else none) = some ⟨y, mo, d, hh, mi, ss, some z⟩
      rw [if_pos (by decide)]
      rw [digits4_digitChar (by omega), digits2_digitChar (by omega),
        digits2_digitChar hd99, digits2_digitChar (by omega),
        digits2_digitChar (by omega), digits2_digitChar (by omega)]
      show (if (':' : Char) = ':' then
        match offsetVal '-' (digitChar (z.natAbs / 60 / 10))
            (digitChar (z.natAbs / 60 % 10)) (digitChar (z.natAbs % 60 / 10))
            (digitChar (z.natAbs % 60 % 10)) with
        | some tzv => mkDTIf y mo d hh mi ss (some tzv)
        | none => none
      else none) = some ⟨y, mo, d, hh, mi, ss, some z⟩
      rw [if_pos rfl, offsetVal_minus hna]
      show mkDTIf y mo d hh mi ss (some (-(z.natAbs : ℤ))) =
        some ⟨y, mo, d, hh, mi, ss, some z⟩
      unfold mkDTIf
      have hzz : (-(z.natAbs : ℤ)) = z := by omega
      rw [if_pos ⟨h1, h3, h4, h5, h6, h7, h8, h9⟩, hzz]

end GpxSplitter

namespace GpxSplitter

theorem isoPrint_head? (dt : DT) :
    (isoPrint dt).head? = some (digitChar (dt.year / 1000)) := by
  simp [isoPrint, pad4]

theorem isoPrint_ne_nil (dt : DT) : isoPrint dt ≠ [] := by
  simp [isoPrint, pad4]

theorem isoPrint_getLast?_digit (dt : DT) :
    ∃ k, k ≤ 9 ∧ (isoPrint dt).getLast? = some (digitChar k) := by
  rcases dt with ⟨y, mo, d, hh, mi, ss, tz⟩
  rcases tz with _ | z
  · exact ⟨ss % 10, by omega, by simp [isoPrint, pad4, pad2]⟩
  · exact ⟨z.natAbs % 60 % 10, by omega, by simp [isoPrint, pad4, pad2]⟩

theorem endsZ_isoPrint (dt : DT) : endsZ (isoPrint dt) = false := by
  obtain ⟨k, hk, hl⟩ := isoPrint_getLast?_digit dt
  unfold endsZ
  rw [hl]
  exact decide_eq_false (by simp [digitChar_ne_Z hk])

theorem pyStrip_isoPrint {dt : DT} (h : dt.WF) :
    pyStrip (isoPrint dt) = isoPrint dt := by
  apply pyStrip_eq_self
  · intro c hc
    rw [isoPrint_head? dt] at hc
    have : c = digitChar (dt.year / 1000) := (Option.some.injEq _ _ ▸ hc).symm
    rw [this]
    exact digitChar_not_space (by have := h.2.1; omega)
  · intro c hc
    obtain ⟨k, hk, hl⟩ := isoPrint_getLast?_digit dt
    rw [hl] at hc
    have : c = digitChar k := (Option.some.injEq _ _ ▸ hc).symm
    rw [this]
    exact digitChar_not_space hk

theorem resolveTime_isoPrint {ts : DT} (h : ts.WF) (now : DT) (j : ℕ) :
    resolveTime now j (some (isoPrint ts)) = ts := by
  have hne : isoPrint ts ≠ [] := isoPrint_ne_nil ts
  have hstrip : pyStrip (isoPrint ts) = isoPrint ts := pyStrip_isoPrint h
  have hz : endsZ (isoPrint ts) = false := endsZ_isoPrint ts
  have hiso : fromisoformatM (isoPrint ts) = some ts := fromisoformatM_isoPrint h
  have hchain : resolveTimeChain (isoPrint ts) = some ts := by
    unfold resolveTimeChain
    rw [hiso]
  simp only [resolveTime, hne, reduceIte, ne_eq, not_false_eq_true, hstrip, hz,
    Bool.false_eq_true, if_false, hchain]

end GpxSplitter

namespace GpxSplitter

theorem parsePoints_roundtrip (now : DT) :
    ∀ (l : List Point) (j0 : ℕ), (∀ p ∈ l, p.timestamp.WF) →
      (((l.map fun p =>
          (⟨some p.lat, some p.lon, some (isoPrint p.timestamp)⟩ : TrkptElem)).enumFrom
            j0).filterMap fun jp => parsePoint now jp.1 jp.2) = l := by
  intro l
  induction l with
  | nil => intro _ _; rfl
  | cons p rest ih =>
    intro j0 hWF
    simp only [List.map_cons]
    have hcons : ((⟨some p.lat, some p.lon, some (isoPrint p.timestamp)⟩ : TrkptElem) ::
        rest.map fun p =>
          (⟨some p.lat, some p.lon, some (isoPrint p.timestamp)⟩ : TrkptElem)).enumFrom j0 =
        (j0, ⟨some p.lat, some p.lon, some (isoPrint p.timestamp)⟩) ::
          (rest.map fun p =>
            (⟨some p.lat, some p.lon, some (isoPrint p.timestamp)⟩ : TrkptElem)).enumFrom
              (j0 + 1) := rfl
    rw [hcons, List.filterMap_cons]
    have hpp : parsePoint now j0
        (⟨some p.lat, some p.lon, some (isoPrint p.timestamp)⟩ : TrkptElem) =
        some p := by
      show some ⟨p.lat, p.lon, resolveTime now j0 (some (isoPrint p.timestamp))⟩ =
        some p
      rw [resolveTime_isoPrint (hWF p (List.mem_cons_self p rest)) now j0]
    rw [hpp]
    rw [ih (j0 + 1) (fun q hq => hWF q (List.mem_cons_of_mem p hq))]

/-- C2 (amended): serializing a NON-EMPTY timestamp-sorted point sequence
(well-formed second-resolution timestamps, uniformly naive or uniformly
aware — Python raises when naive and aware datetimes are mixed) under a
name that is non-empty and free of surrounding whitespace, then parsing,
yields exactly one track with that name and exactly the original points. -/
theorem C2_roundtrip (cd : CalcDist) (now : DT) (pts : List Point)
    (nm : List Char) (hne : pts ≠ [])
    (hsorted : List.Sorted
      (fun p q : Point => dtKey p.timestamp ≤ dtKey q.timestamp) pts)
    (hWF : ∀ p ∈ pts, p.timestamp.WF)
    (htz : (∀ p ∈ pts, p.timestamp.tz = none) ∨
      (∀ p ∈ pts, p.timestamp.tz ≠ none))
    (hnm1 : pyStrip nm = nm) (hnm2 : nm ≠ []) :
    (parse_gpx_file cd now [create_gpx_content pts nm]).map
      (fun t => (t.name, t.points)) = [(nm, pts)] := by
  have hname : trackNameOf 0 (some (some nm)) = nm := by
    show (if nm ≠ [] then pyStrip nm else defaultTrackName 0) = nm
    rw [if_pos hnm2, hnm1]
  have hsort : sortPoints pts = pts := List.Sorted.insertionSort_eq hsorted
  have hpt : parseTrackAt cd now 0 (create_gpx_content pts nm) =
      mkTrack cd nm pts := by
    unfold parseTrackAt create_gpx_content
    show mkTrack cd (trackNameOf 0 (some (some nm)))
      (sortPoints (((pts.map fun p =>
        (⟨some p.lat, some p.lon, some (isoPrint p.timestamp)⟩ : TrkptElem)).enumFrom
          0).filterMap fun jp => parsePoint now jp.1 jp.2)) = mkTrack cd nm pts
    rw [hname, parsePoints_roundtrip now pts 0 hWF, hsort]
  rcases hp : pts with _ | ⟨p, rest⟩
  · exact absurd hp hne
  · subst hp
    show ((([create_gpx_content (p :: rest) nm].enumFrom 0).filterMap
      (fun it => parseTrackAt cd now it.1 it.2)).map fun t => (t.name, t.points)) = _
    have h1 : ([create_gpx_content (p :: rest) nm].enumFrom 0) =
        [(0, create_gpx_content (p :: rest) nm)] := rfl
    rw [h1, List.filterMap_cons, hpt]
    unfold mkTrack
    simp

end GpxSplitter

namespace GpxSplitter

/-- The singleton point list used by the C2 witness. -/
def samplePts : List Point := [⟨0, 0, ⟨2024, 1, 1, 0, 0, 0, none⟩⟩]

/-- C2 counterexample: the empty point sequence is sorted, yet parsing its
serialization yields zero tracks, not the one track the claim requires. -/
theorem C2_counterexample :
    parse_gpx_file sampleDistZero sampleNow
      [create_gpx_content [] ("X".toList)] = [] := by
  decide

/-- C2 witness at a concrete input. -/
theorem C2_roundtrip_witness :
    (samplePts ≠ [] ∧
      List.Sorted (fun p q : Point => dtKey p.timestamp ≤ dtKey q.timestamp)
        samplePts ∧
      (∀ p ∈ samplePts, p.timestamp.WF) ∧
      ((∀ p ∈ samplePts, p.timestamp.tz = none) ∨
        (∀ p ∈ samplePts, p.timestamp.tz ≠ none)) ∧
      pyStrip ("X".toList) = "X".toList ∧ ("X".toList) ≠ []) ∧
    (parse_gpx_file sampleDistZero sampleNow
        [create_gpx_content samplePts ("X".toList)]).map
      (fun t => (t.name, t.points)) = [(("X".toList), samplePts)] :=
  ⟨⟨by decide, by decide, by decide, by decide, by decide, by decide⟩,
   C2_roundtrip sampleDistZero sampleNow samplePts ("X".toList) (by decide)
     (by decide) (by decide) (by decide) (by decide) (by decide)⟩

end GpxSplitter

namespace GpxSplitter

/-! ### The distance collaborator over the reals -/

/-- Model of `math.radians`. -/
noncomputable def radians (x : ℝ) : ℝ := x * (Real.pi / 180)

/-- Model of `math.atan2` (two-argument arctangent with quadrant handling). -/
noncomputable def atan2 (y x : ℝ) : ℝ :=
  if 0 < x then Real.arctan (y / x)
  else if x < 0 ∧ 0 ≤ y then Real.arctan (y / x) + Real.pi
  else if x < 0 ∧ y < 0 then Real.arctan (y / x) - Real.pi
  else if x = 0 ∧ 0 < y then Real.pi / 2
  else if x = 0 ∧ y < 0 then -(Real.pi / 2)
  else 0

/-- Model of `calculate_distance` (`distance_calculator.py` lines 27-60): haversine
on a sphere of radius 6371.0 km, converted to nautical miles by dividing
by 1.852, modelled exactly over the reals. -/
noncomputable def calculate_distance (lat1 lon1 lat2 lon2 : ℝ) : ℝ :=
  let lat1_rad := radians lat1
  let lon1_rad := radians lon1
  let lat2_rad := radians lat2
  let lon2_rad := radians lon2
  let earth_radius_km : ℝ := 6371.0
  let dlon := lon2_rad - lon1_rad
  let dlat := lat2_rad - lat1_rad
  let a := Real.sin (dlat / 2) ^ 2 +
    Real.cos lat1_rad * Real.cos lat2_rad * Real.sin (dlon / 2) ^ 2
  let c := 2 * atan2 (Real.sqrt a) (Real.sqrt (1 - a))
  let distance_km := earth_radius_km * c
  distance_km / 1.852

theorem calculate_distance_eq_fixture :
    calculate_distance 0 0 0 1 = 6371 * (Real.pi / 180) / 1.852 := by
  have hpi := Real.pi_pos
  have hθpos : 0 < Real.pi / 360 := by positivity
  have hsin_nonneg : 0 ≤ Real.sin (Real.pi / 360) :=
    Real.sin_nonneg_of_nonneg_of_le_pi (le_of_lt hθpos) (by linarith)
  have hcos_pos : 0 < Real.cos (Real.pi / 360) :=
    Real.cos_pos_of_mem_Ioo ⟨by linarith, by linarith⟩
  unfold calculate_distance radians
  simp only [zero_mul, one_mul, sub_zero, zero_sub, zero_div, Real.sin_zero,
    Real.cos_zero, mul_one, zero_add]
  norm_num
  have hdiv : Real.pi / 180 / 2 = Real.pi / 360 := by ring
  rw [hdiv]
  have hsq : Real.sqrt (Real.sin (Real.pi / 360) ^ 2) =
      Real.sin (Real.pi / 360) := Real.sqrt_sq hsin_nonneg
  have hcos_sq : (1 : ℝ) - Real.sin (Real.pi / 360) ^ 2 =
      Real.cos (Real.pi / 360) ^ 2 := by
    have := Real.sin_sq_add_cos_sq (Real.pi / 360)
    linarith
  have hsqc : Real.sqrt (1 - Real.sin (Real.pi / 360) ^ 2) =
      Real.cos (Real.pi / 360) := by
    rw [hcos_sq]
    exact Real.sqrt_sq (le_of_lt hcos_pos)
  rw [hsq, hsqc]
  unfold atan2
  rw [if_pos hcos_pos, ← Real.tan_eq_sin_div_cos,
    Real.arctan_tan (by linarith) (by linarith)]
  ring

/-- C9 counterexample: the fixture value of `calculate_distance 0 0 0 1`
is about 60.04 nautical miles, not within 0.05 of the claimed 59.96. -/
theorem C9_counterexample :
    ¬ (|calculate_distance 0 0 0 1 - 59.96| ≤ 1 / 20) := by
  rw [calculate_distance_eq_fixture, not_le]
  have h1 := Real.pi_gt_d6
  have e : 6371 * (Real.pi / 180) / 1.852 = 6371 / 333.36 * Real.pi := by ring
  have hd : (1 : ℝ) / 20 < 6371 * (Real.pi / 180) / 1.852 - 59.96 := by
    rw [e]
    nlinarith
  calc (1 : ℝ) / 20 < 6371 * (Real.pi / 180) / 1.852 - 59.96 := hd
    _ ≤ |6371 * (Real.pi / 180) / 1.852 - 59.96| := le_abs_self _

/-- C9 (amended): `calculate_distance` is the haversine distance on a
sphere of radius 6371.0 km divided by 1.852; in particular
`distance(0,0,0,1)` equals `6371·(π/180)/1.852` exactly, which is
approximately 60.04 nautical miles. -/
theorem C9_haversine_fixture :
    calculate_distance 0 0 0 1 = 6371 * (Real.pi / 180) / 1.852 ∧
    |calculate_distance 0 0 0 1 - 60.04| ≤ 1 / 100 := by
  refine ⟨calculate_distance_eq_fixture, ?_⟩
  rw [calculate_distance_eq_fixture, abs_le]
  have h1 := Real.pi_gt_d6
  have h2 := Real.pi_lt_d6
  have e : 6371 * (Real.pi / 180) / 1.852 = 6371 / 333.36 * Real.pi := by ring
  rw [e]
  constructor <;> nlinarith

end GpxSplitter

namespace GpxSplitter

/-! ### Lemmas for the timestamp-resolution refinement -/

theorem replaceZ_cons (c : Char) (cs : List Char) :
    replaceZ (c :: cs) =
      if c = 'Z' then plus0000 ++ replaceZ cs else c :: replaceZ cs := rfl

theorem replaceZ_append (xs ys : List Char) :
    replaceZ (xs ++ ys) = replaceZ xs ++ replaceZ ys := by
  induction xs with
  | nil => rfl
  | cons c cs ih =>
    show replaceZ (c :: (cs ++ ys)) = replaceZ (c :: cs) ++ replaceZ ys
    rw [replaceZ_cons, replaceZ_cons]
    by_cases hc : c = 'Z'
    · rw [if_pos hc, if_pos hc, ih, List.append_assoc]
    · rw [if_neg hc, if_neg hc, ih, List.cons_append]

theorem replaceZ_eq_self {xs : List Char} (h : 'Z' ∉ xs) : replaceZ xs = xs := by
  induction xs with
  | nil => rfl
  | cons c cs ih =>
    rw [replaceZ_cons,
      if_neg (fun hc : c = 'Z' => h (hc ▸ List.mem_cons_self c cs)),
      ih (fun hm => h (List.mem_cons_of_mem c hm))]

theorem plus_mem_replaceZ {xs : List Char} (h : 'Z' ∈ xs) : '+' ∈ replaceZ xs := by
  induction xs with
  | nil => simp at h
  | cons c cs ih =>
    rw [replaceZ_cons]
    by_cases hc : c = 'Z'
    · rw [if_pos hc]
      exact List.mem_append_left _ (by decide)
    · rw [if_neg hc]
      rcases List.mem_cons.mp h with hh | hm
      · exact absurd hh.symm hc
      · exact List.mem_cons_of_mem c (ih hm)

theorem endsZ_append_plus0000 (xs : List Char) :
    endsZ (xs ++ plus0000) = false := by
  unfold endsZ
  rw [List.getLast?_append]
  have h0 : (plus0000 : List Char).getLast? = some '0' := rfl
  rw [h0]
  rfl

theorem toDigit_bounds {c : Char} {n : ℕ} (h : toDigit c = some n) :
    '0' ≤ c ∧ c ≤ '9' := by
  unfold toDigit at h
  split at h
  · assumption
  · exact absurd h (by simp)

theorem digit_bound_ne {c : Char} (h : '0' ≤ c ∧ c ≤ '9') :
    c ≠ 'Z' ∧ c ≠ '+' := by
  constructor
  · intro he
    subst he
    exact absurd h.2 (by decide)
  · intro he
    subst he
    exact absurd h.1 (by decide)

theorem digits2_bounds {a b : Char} {v : ℕ} (h : digits2 a b = some v) :
    ('0' ≤ a ∧ a ≤ '9') ∧ ('0' ≤ b ∧ b ≤ '9') := by
  unfold digits2 at h
  split at h
  · next ha hb => exact ⟨toDigit_bounds ha, toDigit_bounds hb⟩
  · exact absurd h (by simp)

theorem digits4_bounds {a b c d : Char} {v : ℕ} (h : digits4 a b c d = some v) :
    ('0' ≤ a ∧ a ≤ '9') ∧ ('0' ≤ b ∧ b ≤ '9') ∧ ('0' ≤ c ∧ c ≤ '9') ∧
    ('0' ≤ d ∧ d ≤ '9') := by
  unfold digits4 at h
  split at h
  · next ha hb hc hd =>
    exact ⟨toDigit_bounds ha, toDigit_bounds hb, toDigit_bounds hc,
      toDigit_bounds hd⟩
  · exact absurd h (by simp)

theorem offsetVal_inv {sg o1 o2 o3 o4 : Char} {z : ℤ}
    (h : offsetVal sg o1 o2 o3 o4 = some z) :
    (sg = '+' ∨ sg = '-') ∧ ('0' ≤ o1 ∧ o1 ≤ '9') ∧ ('0' ≤ o2 ∧ o2 ≤ '9') ∧
    ('0' ≤ o3 ∧ o3 ≤ '9') ∧ ('0' ≤ o4 ∧ o4 ≤ '9') := by
  unfold offsetVal at h
  split at h
  · next ha hb =>
    obtain ⟨h1, h2⟩ := digits2_bounds ha
    obtain ⟨h3, h4⟩ := digits2_bounds hb
    split at h
    · split at h
      · next hsg => exact ⟨Or.inl hsg, h1, h2, h3, h4⟩
      · split at h
        · next hsg => exact ⟨Or.inr hsg, h1, h2, h3, h4⟩
        · exact absurd h (by simp)
    · exact absurd h (by simp)
  · exact absurd h (by simp)

theorem mkDTIf_inv {y mo d h n s : ℕ} {tz : Option ℤ} {dt : DT}
    (hm : mkDTIf y mo d h n s tz = some dt) :
    dt = ⟨y, mo, d, h, n, s, tz⟩ ∧
    (1 ≤ y ∧ 1 ≤ mo ∧ mo ≤ 12 ∧ 1 ≤ d ∧ d ≤ daysInMonth y mo ∧
      h ≤ 23 ∧ n ≤ 59 ∧ s ≤ 59) := by
  unfold mkDTIf at hm
  split at hm
  · next hc => exact ⟨(Option.some.injEq _ _ ▸ hm).symm, hc⟩
  · exact absurd hm (by simp)

end GpxSplitter

namespace GpxSplitter

set_option maxHeartbeats 1000000 in
theorem fromisoformatM_chars {cs : List Char} {dt : DT}
    (h : fromisoformatM cs = some dt) :
    (∀ c ∈ cs, ('0' ≤ c ∧ c ≤ '9') ∨ c = '-' ∨ c = 'T' ∨ c = ':' ∨ c = '+') ∧
    (∀ c ∈ cs.take (cs.length - 6),
      ('0' ≤ c ∧ c ≤ '9') ∨ c = '-' ∨ c = 'T' ∨ c = ':') := by
  unfold fromisoformatM at h
  split at h
  · next y1 y2 y3 y4 c1 mo1 mo2 c2 d1 d2 c3 hh1 hh2 c4 n1 n2 c5 s1 s2 rest =>
    split at h
    · next hc =>
      obtain ⟨e1, e2, e3, e4, e5⟩ := hc
      split at h
      · next hy hmo hd hh hn hs =>
        obtain ⟨hy1, hy2, hy3, hy4⟩ := digits4_bounds hy
        obtain ⟨hmo1, hmo2⟩ := digits2_bounds hmo
        obtain ⟨hd1, hd2⟩ := digits2_bounds hd
        obtain ⟨hh1b, hh2b⟩ := digits2_bounds hh
        obtain ⟨hn1, hn2⟩ := digits2_bounds hn
        obtain ⟨hs1, hs2⟩ := digits2_bounds hs
        subst e1 e2 e3 e4 e5
        split at h
        · constructor
          · intro c hcm
            simp only [List.mem_cons, List.not_mem_nil, or_false] at hcm
            rcases hcm with rfl | rfl | rfl | rfl | rfl | rfl | rfl | rfl | rfl |
              rfl | rfl | rfl | rfl | rfl | rfl | rfl | rfl | rfl | rfl
            · exact Or.inl hy1
            · exact Or.inl hy2
            · exact Or.inl hy3
            · exact Or.inl hy4
            · exact Or.inr (Or.inl rfl)
            · exact Or.inl hmo1
            · exact Or.inl hmo2
            · exact Or.inr (Or.inl rfl)
            · exact Or.inl hd1
            · exact Or.inl hd2
            · exact Or.inr (Or.inr (Or.inl rfl))
            · exact Or.inl hh1b
            · exact Or.inl hh2b
            · exact Or.inr (Or.inr (Or.inr (Or.inl rfl)))
            · exact Or.inl hn1
            · exact Or.inl hn2
            · exact Or.inr (Or.inr (Or.inr (Or.inl rfl)))
            · exact Or.inl hs1
            · exact Or.inl hs2
          · intro c hcm
            norm_num [List.take] at hcm
            rcases hcm with rfl | rfl | rfl | rfl | rfl | rfl | rfl | rfl | rfl |
              rfl | rfl | rfl | rfl
            · exact Or.inl hy1
            · exact Or.inl hy2
            · exact Or.inl hy3
            · exact Or.inl hy4
            · exact Or.inr (Or.inl rfl)
            · exact Or.inl hmo1
            · exact Or.inl hmo2
            · exact Or.inr (Or.inl rfl)
            · exact Or.inl hd1
            · exact Or.inl hd2
            · exact Or.inr (Or.inr (Or.inl rfl))
            · exact Or.inl hh1b
            · exact Or.inl hh2b
        · next sg o1 o2 oc o3 o4 =>
          split at h
          · next hoc =>
            subst hoc
            split at h
            · next tzv htz =>
              obtain ⟨hsg, ho1, ho2, ho3, ho4⟩ := offsetVal_inv htz
              constructor
              · intro c hcm
                simp only [List.mem_cons, List.not_mem_nil, or_false] at hcm
                rcases hcm with rfl | rfl | rfl | rfl | rfl | rfl | rfl | rfl |
                  rfl | rfl | rfl | rfl | rfl | rfl | rfl | rfl | rfl | rfl |
                  rfl | rfl | rfl | rfl | rfl | rfl | rfl
                · exact Or.inl hy1
                · exact Or.inl hy2
                · exact Or.inl hy3
                · exact Or.inl hy4
                · exact Or.inr (Or.inl rfl)
                · exact Or.inl hmo1
                · exact Or.inl hmo2
                · exact Or.inr (Or.inl rfl)
                · exact Or.inl hd1
                · exact Or.inl hd2
                · exact Or.inr (Or.inr (Or.inl rfl))
                · exact Or.inl hh1b
                · exact Or.inl hh2b
                · exact Or.inr (Or.inr (Or.inr (Or.inl rfl)))
                · exact Or.inl hn1
                · exact Or.inl hn2
                · exact Or.inr (Or.inr (Or.inr (Or.inl rfl)))
                · exact Or.inl hs1
                · exact Or.inl hs2
                · rcases hsg with rfl | rfl
                  · exact Or.inr (Or.inr (Or.inr (Or.inr rfl)))
                  · exact Or.inr (Or.inl rfl)
                · exact Or.inl ho1
                · exact Or.inl ho2
                · exact Or.inr (Or.inr (Or.inr (Or.inl rfl)))
                · exact Or.inl ho3
                · exact Or.inl ho4
              · intro c hcm
                norm_num [List.take] at hcm
                rcases hcm with rfl | rfl | rfl | rfl | rfl | rfl | rfl | rfl |
                  rfl | rfl | rfl | rfl | rfl | rfl | rfl | rfl | rfl | rfl | rfl
                · exact Or.inl hy1
                · exact Or.inl hy2
                · exact Or.inl hy3
                · exact Or.inl hy4
                · exact Or.inr (Or.inl rfl)
                · exact Or.inl hmo1
                · exact Or.inl hmo2
                · exact Or.inr (Or.inl rfl)
                · exact Or.inl hd1
                · exact Or.inl hd2
                · exact Or.inr (Or.inr (Or.inl rfl))
                · exact Or.inl hh1b
                · exact Or.inl hh2b
                · exact Or.inr (Or.inr (Or.inr rfl))
                · exact Or.inl hn1
                · exact Or.inl hn2
                · exact Or.inr (Or.inr (Or.inr rfl))
                · exact Or.inl hs1
                · exact Or.inl hs2
            · exact absurd h (by simp)
          · exact absurd h (by simp)
        · exact absurd h (by simp)
      · exact absurd h (by simp)
    · exact absurd h (by simp)
  · exact absurd h (by simp)

theorem fromisoformatM_no_Z {cs : List Char} {dt : DT}
    (h : fromisoformatM cs = some dt) : 'Z' ∉ cs := by
  intro hm
  exact absurd ((fromisoformatM_chars h).1 'Z' hm) (by decide)

theorem fromisoformatM_no_plus_take {cs : List Char} {dt : DT}
    (h : fromisoformatM cs = some dt) : '+' ∉ cs.take (cs.length - 6) := by
  intro hm
  exact absurd ((fromisoformatM_chars h).2 '+' hm) (by decide)

end GpxSplitter

namespace GpxSplitter

theorem fromisoformatM_explicit
    (y1 y2 y3 y4 mo1 mo2 d1 d2 hh1 hh2 n1 n2 s1 s2 : Char)
    (yv mov dv hv nv sv : ℕ)
    (hy : digits4 y1 y2 y3 y4 = some yv) (hmo : digits2 mo1 mo2 = some mov)
    (hd : digits2 d1 d2 = some dv) (hh : digits2 hh1 hh2 = some hv)
    (hn : digits2 n1 n2 = some nv) (hs : digits2 s1 s2 = some sv) :
    fromisoformatM [y1, y2, y3, y4, '-', mo1, mo2, '-', d1, d2, 'T', hh1, hh2,
      ':', n1, n2, ':', s1, s2, '+', '0', '0', ':', '0', '0'] =
      mkDTIf yv mov dv hv nv sv (some 0) := by
  show (if ('-' : Char) = '-' ∧ ('-' : Char) = '-' ∧ ('T' : Char) = 'T' ∧
      (':' : Char) = ':' ∧ (':' : Char) = ':' then
    match digits4 y1 y2 y3 y4, digits2 mo1 mo2, digits2 d1 d2,
        digits2 hh1 hh2, digits2 n1 n2, digits2 s1 s2 with
    | some yv, some mov, some dv, some hv, some nv, some sv =>
      if (':' : Char) = ':' then
        match offsetVal '+' '0' '0' '0' '0' with
        | some tzv => mkDTIf yv mov dv hv nv sv (some tzv)
        | none => none
      else none
    | _, _, _, _, _, _ => none
  else none) = mkDTIf yv mov dv hv nv sv (some 0)
  rw [if_pos (by decide), hy, hmo, hd, hh, hn, hs]
  show (if (':' : Char) = ':' then
    match offsetVal '+' '0' '0' '0' '0' with
    | some tzv => mkDTIf yv mov dv hv nv sv (some tzv)
    | none => none
  else none) = mkDTIf yv mov dv hv nv sv (some 0)
  rw [if_pos rfl, show offsetVal '+' '0' '0' '0' '0' = some 0 by decide]

set_option maxHeartbeats 1000000 in
theorem noZoneFmt_inv {cs : List Char} {dt : DT} (h : noZoneFmt cs = some dt) :
    cs.length = 19 ∧ cs.get? 13 = some ':' ∧
    (∃ c, cs.getLast? = some c ∧ '0' ≤ c ∧ c ≤ '9') ∧
    fromisoformatM (cs ++ plus0000) =
      some ⟨dt.year, dt.month, dt.day, dt.hour, dt.minute, dt.second, some 0⟩ := by
  unfold noZoneFmt at h
  split at h
  · next y1 y2 y3 y4 c1 mo1 mo2 c2 d1 d2 c3 hh1 hh2 c4 n1 n2 c5 s1 s2 =>
    split at h
    · next hc =>
      obtain ⟨e1, e2, e3, e4, e5⟩ := hc
      split at h
      · next hy hmo hd hh hn hs =>
        obtain ⟨hdt, hcond⟩ := mkDTIf_inv h
        obtain ⟨hsb1, hsb2⟩ := digits2_bounds hs
        subst e1 e2 e3 e4 e5
        refine ⟨by simp, rfl, ⟨s2, rfl, hsb2.1, hsb2.2⟩, ?_⟩
        show fromisoformatM
          [y1, y2, y3, y4, '-', mo1, mo2, '-', d1, d2, 'T', hh1, hh2, ':',
           n1, n2, ':', s1, s2, '+', '0', '0', ':', '0', '0'] = _
        rw [fromisoformatM_explicit _ _ _ _ _ _ _ _ _ _ _ _ _ _ _ _ _ _ _ _
          hy hmo hd hh hn hs]
        unfold mkDTIf
        rw [if_pos hcond, hdt]
      · exact absurd h (by simp)
    · exact absurd h (by simp)
  · exact absurd h (by simp)

end GpxSplitter

namespace GpxSplitter

theorem noZoneFmt_no_Z {cs : List Char} {dt : DT} (h : noZoneFmt cs = some dt) :
    'Z' ∉ cs := by
  intro hm
  exact fromisoformatM_no_Z (noZoneFmt_inv h).2.2.2
    (List.mem_append_left plus0000 hm)

theorem strictZFmt_append_p0 (xs : List Char) :
    strictZFmt (xs ++ plus0000) = none := by
  unfold strictZFmt
  rw [endsZ_append_plus0000]
  rfl

theorem noZoneFmt_append_p0 (xs : List Char) :
    noZoneFmt (xs ++ plus0000) = none := by
  cases hx : noZoneFmt (xs ++ plus0000) with
  | none => rfl
  | some d =>
    obtain ⟨hlen, h13, -, -⟩ := noZoneFmt_inv hx
    have hxs : xs.length = 13 := by
      rw [List.length_append] at hlen
      have : (plus0000 : List Char).length = 6 := rfl
      omega
    have hplus : (xs ++ plus0000).get? 13 = some '+' := by
      rw [List.get?_append_right (by omega), hxs]
      rfl
    rw [hplus] at h13
    simp at h13

theorem noZoneFmt_endsZ {cs : List Char} (h : endsZ cs = true) :
    noZoneFmt cs = none := by
  cases hx : noZoneFmt cs with
  | none => rfl
  | some d =>
    obtain ⟨-, -, ⟨c, hl, hb1, hb2⟩, -⟩ := noZoneFmt_inv hx
    unfold endsZ at h
    have hgl := of_decide_eq_true h
    rw [hl] at hgl
    have : c = 'Z' := Option.some.injEq _ _ ▸ hgl
    subst this
    exact absurd hb2 (by decide)

theorem strictZFmt_of_endsZ {cs : List Char} (h : endsZ cs = true) :
    strictZFmt cs = noZoneFmt cs.dropLast := by
  unfold strictZFmt
  rw [if_pos h]

theorem eq_dropLast_append {s : List Char} {c : Char}
    (h : s.getLast? = some c) : s = s.dropLast ++ [c] := by
  have hne : s ≠ [] := by
    intro he
    rw [he] at h
    simp at h
  have h2 := List.getLast?_eq_getLast s hne
  rw [h2] at h
  have hc : s.getLast hne = c := Option.some.injEq _ _ ▸ h
  rw [← hc]
  exact (List.dropLast_append_getLast hne).symm

end GpxSplitter

namespace GpxSplitter

theorem chain_eq (s1 : List Char) :
    resolveTimeChain (if endsZ s1 then replaceZ s1 else s1) =
      resolveTimeSpecChain s1 := by
  by_cases hz : endsZ s1 = true
  · rw [if_pos hz]
    have hgl : s1.getLast? = some 'Z' := by
      unfold endsZ at hz
      exact of_decide_eq_true hz
    have hs1 : s1 = s1.dropLast ++ ['Z'] := eq_dropLast_append hgl
    have hrt : replaceTrailingZ s1 = s1.dropLast ++ plus0000 := by
      unfold replaceTrailingZ
      rw [if_pos hz]
    have hrzZ : replaceZ ['Z'] = plus0000 := by decide
    have hrz : replaceZ s1 = replaceZ s1.dropLast ++ plus0000 := by
      conv => lhs; rw [hs1]
      rw [replaceZ_append, hrzZ]
    unfold resolveTimeChain resolveTimeSpecChain
    rw [hrt, hrz]
    by_cases hzt : 'Z' ∈ s1.dropLast
    · have hvnone : fromisoformatM (s1.dropLast ++ plus0000) = none := by
        cases hx : fromisoformatM (s1.dropLast ++ plus0000) with
        | none => rfl
        | some d =>
          exact absurd (List.mem_append_left _ hzt) (fromisoformatM_no_Z hx)
      have hunone : fromisoformatM (replaceZ s1.dropLast ++ plus0000) = none := by
        cases hx : fromisoformatM (replaceZ s1.dropLast ++ plus0000) with
        | none => rfl
        | some d =>
          have hplus : '+' ∈ replaceZ s1.dropLast := plus_mem_replaceZ hzt
          have htake : (replaceZ s1.dropLast ++ plus0000).take
              ((replaceZ s1.dropLast ++ plus0000).length - 6) =
              replaceZ s1.dropLast := by
            have hlen : (replaceZ s1.dropLast ++ plus0000).length - 6 =
                (replaceZ s1.dropLast).length := by
              rw [List.length_append]
              have : (plus0000 : List Char).length = 6 := rfl
              omega
            rw [hlen]
            exact List.take_left _ _
          exact absurd (htake.symm ▸ hplus) (fromisoformatM_no_plus_take hx)
      have hstrictU : strictZFmt (replaceZ s1.dropLast ++ plus0000) = none :=
        strictZFmt_append_p0 _
      have hnoU : noZoneFmt (replaceZ s1.dropLast ++ plus0000) = none :=
        noZoneFmt_append_p0 _
      have hstrictS : strictZFmt s1 = none := by
        rw [strictZFmt_of_endsZ hz]
        cases hx : noZoneFmt s1.dropLast with
        | none => rfl
        | some d => exact absurd hzt (noZoneFmt_no_Z hx)
      have hnoS : noZoneFmt s1 = none := noZoneFmt_endsZ hz
      rw [hvnone, hunone, hstrictU, hstrictS, hnoU, hnoS]
    · rw [replaceZ_eq_self hzt]
      cases hx : fromisoformatM (s1.dropLast ++ plus0000) with
      | some d => rfl
      | none =>
        have hstrictU : strictZFmt (s1.dropLast ++ plus0000) = none :=
          strictZFmt_append_p0 _
        have hnoU : noZoneFmt (s1.dropLast ++ plus0000) = none :=
          noZoneFmt_append_p0 _
        have hstrictS : strictZFmt s1 = none := by
          rw [strictZFmt_of_endsZ hz]
          cases hx2 : noZoneFmt s1.dropLast with
          | none => rfl
          | some f =>
            have := (noZoneFmt_inv hx2).2.2.2
            rw [hx] at this
            exact absurd this (by simp)
        have hnoS : noZoneFmt s1 = none := noZoneFmt_endsZ hz
        rw [hstrictU, hstrictS, hnoU, hnoS]
  · rw [if_neg hz]
    unfold resolveTimeChain resolveTimeSpecChain replaceTrailingZ
    rw [if_neg hz]

/-- C4: the timestamp-resolution chain of `parse_gpx_file` is, for every
input, equal to the spec-worded resolution: (1) ISO-8601 parse with a
trailing `Z` rewritten to `+00:00`; (2) on failure the strict
`YYYY-MM-DDTHH:MM:SSZ` format; (3) on failure `YYYY-MM-DDTHH:MM:SS`;
(4) on total failure or an absent/empty time text, `now()` plus the
point's 0-based pre-sort index in minutes.  The source differs textually —
it replaces EVERY `Z` and runs the strict formats on the mutated string —
but no input can distinguish the two. -/
theorem C4_timestamp_resolution (now : DT) (j : ℕ)
    (timeText : Option (List Char)) :
    resolveTime now j timeText = resolveTimeSpec now j timeText := by
  rcases timeText with _ | s
  · rfl
  · show (if s ≠ [] then
        match resolveTimeChain
            (if endsZ (pyStrip s) then replaceZ (pyStrip s) else pyStrip s) with
        | some dt => dt
        | none => addMinutes now j
      else addMinutes now j) =
      (if s ≠ [] then
        match resolveTimeSpecChain (pyStrip s) with
        | some dt => dt
        | none => addMinutes now j
      else addMinutes now j)
    by_cases hne : s ≠ []
    · rw [if_pos hne, if_pos hne, chain_eq (pyStrip s)]
    · rw [if_neg hne, if_neg hne]

end GpxSplitter
